import Mathlib

/-!
Verification development for the RAID tagline driver.

Shallow embedding of the driver sources:
  - the request opcode codec (create_raid_request / extract_raid_response),
  - the block cache (init_raid_cache / put_raid_cache / get_raid_cache),
  - the driver facade (tagline_driver_init / tagline_read / tagline_write /
    raid_disk_signal / raid_disk_recover / chooseDisk helper loops).

Machine integers are modelled as Nat (unsigned) or Int (C int), with explicit
mod-2^k truncation at the points where C performs conversions or 64-bit shifts.
Block payloads are abstract values (the driver never inspects payload bytes):
a Block is modelled as a Nat.

The physical disk array and the transport (raid_client.c plus the raid_bus
headers) are external collaborators; the spec describes them only at their
interface, and the numeric values of the protocol constants live in headers
that are not part of the sources here, so those parts carry doc comments
starting with "Modelled from the spec".
-/

set_option maxRecDepth 4000
set_option linter.unusedVariables false

/-- Block payload, abstract: the driver copies payloads around without
inspecting their bytes, so one block's contents is a single opaque value. -/
abbrev Block := Nat

/-- Contents of a freshly allocated (malloc/calloc) payload buffer. -/
def defaultBlock : Block := 0

/-- Modelled from the spec: the number of physical disks (configuration
constant RAID_DISKS from the raid_bus header, which is not among the
sources); the spec only requires a fixed disk count, so a concrete small
value is used. -/
def RAID_DISKS : Nat := 4

/-- Modelled from the spec: operation type INIT (spec, section 6, lists the
types INIT, FORMAT, READ, WRITE, STATUS, CLOSE; numeric values are from the
missing raid_bus header, taken here in enumeration order). -/
def RAID_INIT : Nat := 0

/-- Modelled from the spec: operation type FORMAT. -/
def RAID_FORMAT : Nat := 1

/-- Modelled from the spec: operation type READ. -/
def RAID_READ : Nat := 2

/-- Modelled from the spec: operation type WRITE. -/
def RAID_WRITE : Nat := 3

/-- Modelled from the spec: operation type STATUS. -/
def RAID_STATUS : Nat := 4

/-- Modelled from the spec: operation type CLOSE. -/
def RAID_CLOSE : Nat := 5

/-- Modelled from the spec: disk status Uninitialized. -/
def RAID_DISK_UNINIT : Nat := 0

/-- Modelled from the spec: disk status Ready. -/
def RAID_DISK_READY : Nat := 1

/-- Modelled from the spec: disk status Failed; it doubles as the "failed"
sentinel value returned in the id field of a STATUS response. -/
def RAID_DISK_FAILED : Nat := 2

/-- Modelled from the spec: the cache capacity configuration constant. -/
def TAGLINE_CACHE_SIZE : Nat := 16

/-- Modelled from the spec: blocks per disk (only used inside the block-count
field of the INIT request, as in tagline_driver_init). -/
def RAID_DISKBLOCKS : Nat := 1024

/-- Modelled from the spec: blocks per track (only used inside the
block-count field of the INIT request). -/
def RAID_TRACK_BLOCKS : Nat := 64

/-- C conversion of an int value to uint8 (two's complement, mod 256). -/
def toU8 (z : Int) : Nat := (z % 256).toNat

/-- C conversion of an int value to uint32 (two's complement, mod 2^32). -/
def toU32 (z : Int) : Nat := (z % 4294967296).toNat

/-- A 64-bit left shift: multiply and truncate to 64 bits, as on a uint64. -/
def shl64 (x k : Nat) : Nat := x * 2 ^ k % 2 ^ 64

/-- A right shift on a uint64 (no truncation needed). -/
def shr (x k : Nat) : Nat := x / 2 ^ k

/-- create_raid_request from tagline_driver.c: packs type, block quantity,
disk number, a zero reserved byte and the 32-bit id into one 64-bit opcode,
exactly by the shift-and-or steps of the C code (arguments are truncated to
their C parameter widths uint8/uint8/uint8/uint32). -/
def create_raid_request (type blockQuantity diskNumber id : Nat) : Nat :=
  let op : Nat := type % 2 ^ 8
  let op : Nat := shl64 op 8 ||| blockQuantity % 2 ^ 8
  let op : Nat := shl64 op 8 ||| diskNumber % 2 ^ 8
  let op : Nat := shl64 op 8
  let op : Nat := shl64 op 32 ||| id % 2 ^ 32
  op

/-- extract_raid_response from tagline_driver.c: decodes the response fields
with the same shifts and the 0xFF0000000000 mask as the C code and compares
them with the original request, returning 1 on the first mismatch (status
bit set, disk number, block quantity, type, then id unless the type is
RAID_STATUS) and 0 on success. -/
def extract_raid_response (resp operation : Nat) : Nat :=
  let r := resp % 2 ^ 64
  let o := operation % 2 ^ 64
  let rid := shr (shl64 r 32) 32
  let oid := shr (shl64 o 32) 32
  let status := shr (shl64 r 31) 63
  if status = 1 then 1
  else
    let rdisk := shr (0xFF0000000000 &&& r) 40
    let odisk := shr (0xFF0000000000 &&& o) 40
    if rdisk ≠ odisk then 1
    else
      let rq := shr (shl64 r 8) 56
      let oq := shr (shl64 o 8) 56
      if rq ≠ oq then 1
      else
        let rt := shr r 56
        let ot := shr o 56
        if rt ≠ ot then 1
        else if rid ≠ oid ∧ rt ≠ RAID_STATUS then 1 else 0

/-- The id field stored into GlobResponse.id by extract_raid_response (it is
assigned before any of the validation checks can return). -/
def globRespId (resp : Nat) : Nat := shr (shl64 (resp % 2 ^ 64) 32) 32

/-- Reference packing of a response word: type, quantity, disk, the whole
reserved byte (whose low bit is the status bit) and id, as separate fields.
create_raid_request produces pack with a zero reserved byte. -/
def pack (t q d x id : Nat) : Nat :=
  t * 2 ^ 56 + q * 2 ^ 48 + d * 2 ^ 40 + x * 2 ^ 32 + id

/-- One slot of the cache array (struct cache in raid_cache.c). -/
structure CEntry where
  data : Block
  timestamp : Nat
  disk : Int
  block : Int
deriving Repr, DecidableEq

/-- The cache globals of raid_cache.c: the slot array (as a total function
over slot indices; only indices below capacity are ever used), the capacity
glob_max_items, objectCount, the clock timea and the statistics counters. -/
structure CacheState where
  entries : Nat → CEntry
  capacity : Nat
  objectCount : Nat
  timea : Nat
  hitC : Nat
  missC : Nat
  insertC : Nat
  getC : Nat

/-- Pointwise update of a function-modelled array. -/
def updF {α : Type} (f : Nat → α) (j : Nat) (v : α) : Nat → α :=
  fun i => if i = j then v else f i

/-- Linear scan of the first n cache slots, starting at index i, for the
first slot whose (disk, block) key matches; mirrors the lookup for-loops of
put_raid_cache and get_raid_cache. -/
def scanKey (f : Nat → CEntry) (d b : Int) : Nat → Nat → Option Nat
  | 0, _ => none
  | n + 1, i =>
    if (f i).disk = d ∧ (f i).block = b then some i else scanKey f d b n (i + 1)

/-- The scan for the oldest slot in put_raid_cache: runs i over the first n
slots keeping the first index attaining the strictly smallest timestamp. -/
def oldestGo (f : Nat → CEntry) : Nat → Nat → Nat → Nat → Nat
  | 0, _, best, _ => best
  | n + 1, i, best, bt =>
    if (f i).timestamp < bt then oldestGo f n (i + 1) i (f i).timestamp
    else oldestGo f n (i + 1) best bt

/-- Index of the slot put_raid_cache evicts when the cache is full and the
key is absent: the first slot with the globally smallest timestamp. -/
def oldestIdx (c : CacheState) : Nat :=
  oldestGo c.entries c.capacity 0 0 ((c.entries 0).timestamp)

/-- init_raid_cache from raid_cache.c: capacity recorded, zero counters, and
every slot keyed with the (-1, -1) sentinel; slot payloads are fresh
malloc'ed buffers, modelled as defaultBlock. -/
def init_raid_cache (max_items : Nat) : CacheState :=
  { entries := fun _ => { data := defaultBlock, timestamp := 0, disk := -1, block := -1 },
    capacity := max_items, objectCount := 0, timea := 0,
    hitC := 0, missC := 0, insertC := 0, getC := 0 }

/-- put_raid_cache from raid_cache.c. Below capacity it scans only the first
objectCount slots, updating in place on a key match and otherwise appending
at index objectCount; at capacity it scans every slot, updating in place on
a match and otherwise evicting the slot found by the oldest-timestamp scan.
The timea clock ticks once per call; the hit/miss/insert counters follow the
C code (note: no miss is counted on a below-capacity append). -/
def put_raid_cache (c : CacheState) (dsk blk : Int) (buf : Block) : CacheState :=
  let t := c.timea + 1
  if c.objectCount < c.capacity then
    match scanKey c.entries dsk blk c.objectCount 0 with
    | some i =>
      { c with
          timea := t, hitC := c.hitC + 1, insertC := c.insertC + 1,
          entries := updF c.entries i { data := buf, timestamp := t, disk := dsk, block := blk } }
    | none =>
      { c with
          timea := t, insertC := c.insertC + 1, objectCount := c.objectCount + 1,
          entries := updF c.entries c.objectCount
            { data := buf, timestamp := t, disk := dsk, block := blk } }
  else
    match scanKey c.entries dsk blk c.capacity 0 with
    | some i =>
      { c with
          timea := t, hitC := c.hitC + 1, insertC := c.insertC + 1,
          entries := updF c.entries i { data := buf, timestamp := t, disk := dsk, block := blk } }
    | none =>
      let j := oldestIdx c
      { c with
          timea := t, missC := c.missC + 1, insertC := c.insertC + 1,
          entries := updF c.entries j { data := buf, timestamp := t, disk := dsk, block := blk } }

/-- get_raid_cache from raid_cache.c: scans all capacity slots; on a key
match it refreshes that slot's timestamp and returns its payload, otherwise
it reports a miss (NULL, modelled as none). -/
def get_raid_cache (c : CacheState) (dsk blk : Int) : Option Block × CacheState :=
  let t := c.timea + 1
  match scanKey c.entries dsk blk c.capacity 0 with
  | some i =>
    (some ((c.entries i).data),
      { c with
          timea := t, getC := c.getC + 1, hitC := c.hitC + 1,
          entries := updF c.entries i { c.entries i with timestamp := t } })
  | none =>
    (none, { c with timea := t, getC := c.getC + 1, missC := c.missC + 1 })

/-- The payload get_raid_cache would return on a given key, as a pure
observation of the cache state. -/
def lookupC (c : CacheState) (dsk blk : Int) : Option Block :=
  match scanKey c.entries dsk blk c.capacity 0 with
  | some i => some ((c.entries i).data)
  | none => none

/-- One entry of the logical-to-physical map (struct tagline in
tagline_driver.c): primary and backup disk plus the positions on each, with
-1 as the unassigned sentinel. -/
structure TagBlock where
  disk : Int
  diskPosition : Int
  backupDisk : Int
  backupDiskPosition : Int
deriving Repr, DecidableEq

/-- Update of the two-dimensional Globtag table at one (tagline, block). -/
def updT (g : Nat → Nat → TagBlock) (t b : Nat) (v : TagBlock) : Nat → Nat → TagBlock :=
  fun t1 => if t1 = t then updF (g t1) b v else g t1

/-- The driver's global state: the Globtag mapping table, the per-tagline
block counters, the per-disk status/cursor records of tagline_driver.c, the
cache globals, and the external collaborators (physical disk contents, the
per-disk failure flags the array would report, a pseudo-random stream
modelling rand(), a response-fault schedule, and the issued request trace);
the collaborator fields are Modelled from the spec (the array is a black
box reached through the transport). -/
structure SysState where
  maxtaglines : Nat
  globtag : Nat → Nat → TagBlock
  tagcounter : Nat → Nat
  arrayStatus : Nat → Nat
  arrayBlocks : Nat → Int
  cache : CacheState
  disksC : Nat → Nat → Block
  physFailed : Nat → Bool
  faultAt : Nat → Bool
  randS : Nat → Nat
  rndIdx : Nat
  opIdx : Nat
  trace : List Nat

/-- One rand() % RAID_DISKS draw from the modelled random stream. -/
def randDraw (s : SysState) : Nat × SysState :=
  (s.randS s.rndIdx % RAID_DISKS, { s with rndIdx := s.rndIdx + 1 })

/-- Contents of one disk after a batched write of q blocks at position pos. -/
def writeBlksAt (g : Nat → Block) (pos q : Nat) (payload : Nat → Block) : Nat → Block :=
  fun p => if pos ≤ p ∧ p < pos + q then payload (p - pos) else g p

/-- Modelled from the spec: client_raid_bus_request, the transport call into
the black-box disk array. It decodes the opcode fields, applies the
operation to the array contents (WRITE stores the payload, FORMAT discards
the disk's contents, READ returns the stored blocks), and echoes the
request opcode back unchanged, except that a STATUS response carries the
queried disk's health in the id field; if the fault schedule marks this
call, the response comes back with the status bit (bit 32) set. Returns the
new state, the response opcode, and the data delivered into the caller's
buffer. -/
def client_raid_bus_request (s : SysState) (op : Nat) (payload : Nat → Block) :
    SysState × Nat × (Nat → Block) :=
  let t := op / 2 ^ 56 % 256
  let q := op / 2 ^ 48 % 256
  let d := op / 2 ^ 40 % 256
  let id := op % 2 ^ 32
  let honest :=
    if t = RAID_STATUS then
      op / 2 ^ 32 * 2 ^ 32 + (if s.physFailed d then RAID_DISK_FAILED else RAID_DISK_READY)
    else op
  let resp := if s.faultAt s.opIdx then honest + 2 ^ 32 else honest
  let newDisks :=
    if t = RAID_WRITE then updF s.disksC d (writeBlksAt (s.disksC d) id q payload)
    else if t = RAID_FORMAT then updF s.disksC d (fun _ => defaultBlock)
    else s.disksC
  let dataOut := if t = RAID_READ then (fun j => s.disksC d (id + j)) else (fun _ => defaultBlock)
  ({ s with disksC := newDisks, opIdx := s.opIdx + 1, trace := s.trace ++ [op] }, resp, dataOut)

/-- Outcome of a driver sub-step: continue with the new state, or an early
return of failure code 1 with the state mutated so far. -/
inductive WStep where
  | ok (s : SysState)
  | fail (s : SysState)

/-- Issue one request and validate the response, as every call site of
client_raid_bus_request followed by an extract_raid_response check does. -/
def busStep (s : SysState) (op : Nat) (payload : Nat → Block) : WStep :=
  let r := client_raid_bus_request s op payload
  if extract_raid_response r.2.1 op = 0 then WStep.ok r.1 else WStep.fail r.1

/-- The while loop of chooseDisk when both pointers are non-null: while the
two candidates are equal, redraw both; fuel bounds the number of retries
(none models the C loop never terminating on the given random stream). -/
def chooseBothGo : Nat → Nat → Nat → SysState → Option (Nat × Nat × SysState)
  | fuel, d, b, s =>
    if d ≠ b then some (d, b, s)
    else
      match fuel with
      | 0 => none
      | fuel + 1 =>
        let r1 := randDraw s
        let r2 := randDraw r1.2
        chooseBothGo fuel r1.1 r2.1 r2.2

/-- The while loop of chooseDisk when one pointer is null: redraw the single
candidate until it differs from its old value. -/
def chooseOneGo : Nat → Nat → SysState → Option (Nat × SysState)
  | 0, _, _ => none
  | fuel + 1, old, s =>
    let r := randDraw s
    if r.1 = old then chooseOneGo fuel old r.2 else some (r.1, r.2)

/-- The retry loops of tagline_write around chooseDisk(&d, NULL, 1) (and the
symmetric backup one): while the candidate disk satisfies the bad
predicate, replace it by a chooseDisk single-pointer redraw. -/
def avoidGo : Nat → (Nat → Bool) → Nat → SysState → Option (Nat × SysState)
  | fuel, bad, d, s =>
    if bad d = false then some (d, s)
    else
      match fuel with
      | 0 => none
      | fuel + 1 =>
        match chooseOneGo (fuel + 1) d s with
        | none => none
        | some (d1, s1) => avoidGo fuel bad d1 s1

/-- The blocksAvailable / blocksAvailable2 counting loop of tagline_write
(lines 268-282): both counters start at 1 and localBnum starts at bnum; at
step i the primary counter is incremented when block localBnum+1 continues
block localBnum on the primary disk of block bnum, it is not unassigned,
and block bnum+i's position equals block localBnum's position plus i (the
last conjunct is written exactly as in the C code, where localBnum equals
bnum+i); the backup counter does the same on the backup fields. -/
def availGo (g : Nat → Nat → TagBlock) (tag bnum : Nat) : Nat → Nat → Nat → Nat → Nat × Nat
  | 0, _, a, a2 => (a, a2)
  | n + 1, i, a, a2 =>
    let lb := bnum + i
    let a1 :=
      if (g tag (lb + 1)).disk = (g tag bnum).disk ∧
          (g tag (lb + 1)).diskPosition = (g tag lb).diskPosition + 1 ∧
          (g tag (lb + 1)).disk ≠ -1 ∧
          (g tag (bnum + i)).diskPosition = (g tag lb).diskPosition + (i : Int) then
        a + 1
      else a
    let a3 :=
      if (g tag (lb + 1)).backupDisk = (g tag bnum).backupDisk ∧
          (g tag (lb + 1)).backupDiskPosition = (g tag lb).backupDiskPosition + 1 ∧
          (g tag (lb + 1)).backupDisk ≠ -1 ∧
          (g tag (bnum + i)).backupDiskPosition = (g tag lb).backupDiskPosition + (i : Int) then
        a2 + 1
      else a2
    availGo g tag bnum n (i + 1) a1 a3

/-- blocksAvailable and blocksAvailable2 as computed by tagline_write for a
rewrite of blks blocks starting at bnum. -/
def blocksAvail (g : Nat → Nat → TagBlock) (tag bnum blks : Nat) : Nat × Nat :=
  availGo g tag bnum blks 0 1 1

/-- A sequence of cache puts: for i in [i0, i0+n), put the value vals i
under the key keys i; used for every put_raid_cache for-loop of
tagline_write. -/
def putRun (keys : Nat → Int × Int) (vals : Nat → Block) : CacheState → Nat → Nat → CacheState
  | c, _, 0 => c
  | c, i, n + 1 => putRun keys vals (put_raid_cache c (keys i).1 (keys i).2 (vals i)) (i + 1) n

/-- The rewrite branch of tagline_write taken when blocksAvailable ≥ blks:
put the blks blocks in the cache under their existing primary keys and
issue one batched WRITE at the primary position of block bnum. -/
def rewriteBatchPrim (tag bnum blks : Nat) (buf : Nat → Block) (s : SysState) : WStep :=
  let c := putRun (fun i => ((s.globtag tag (bnum + i)).disk, (s.globtag tag (bnum + i)).diskPosition))
    buf s.cache 0 blks
  let s1 := { s with cache := c }
  let op := create_raid_request RAID_WRITE blks (toU8 (s1.globtag tag bnum).disk)
    (toU32 (s1.globtag tag bnum).diskPosition)
  busStep s1 op buf

/-- The rewrite branch taken when blocksAvailable2 ≥ blks: same batched
WRITE against the backup keys and the backup position of block bnum. -/
def rewriteBatchBack (tag bnum blks : Nat) (buf : Nat → Block) (s : SysState) : WStep :=
  let c := putRun
    (fun i => ((s.globtag tag (bnum + i)).backupDisk, (s.globtag tag (bnum + i)).backupDiskPosition))
    buf s.cache 0 blks
  let s1 := { s with cache := c }
  let op := create_raid_request RAID_WRITE blks (toU8 (s1.globtag tag bnum).backupDisk)
    (toU32 (s1.globtag tag bnum).backupDiskPosition)
  busStep s1 op buf

/-- The head of the rewrite branch taken when blocksAvailable < blks: cache
the first blocksAvailable blocks under their primary keys and issue one
batched WRITE of blocksAvailable blocks at block bnum's primary position. -/
def rewritePartialPrim (tag bnum avail : Nat) (buf : Nat → Block) (s : SysState) : WStep :=
  let c := putRun (fun i => ((s.globtag tag (bnum + i)).disk, (s.globtag tag (bnum + i)).diskPosition))
    buf s.cache 0 avail
  let s1 := { s with cache := c }
  let op := create_raid_request RAID_WRITE avail (toU8 (s1.globtag tag bnum).disk)
    (toU32 (s1.globtag tag bnum).diskPosition)
  busStep s1 op buf

/-- The head of the rewrite branch taken when blocksAvailable2 < blks: the C
code caches the first blocksAvailable (not blocksAvailable2) blocks under
their backup keys, then issues one batched WRITE of blocksAvailable2 blocks
at block bnum's backup position. -/
def rewritePartialBack (tag bnum avail avail2 : Nat) (buf : Nat → Block) (s : SysState) : WStep :=
  let c := putRun
    (fun i => ((s.globtag tag (bnum + i)).backupDisk, (s.globtag tag (bnum + i)).backupDiskPosition))
    buf s.cache 0 avail
  let s1 := { s with cache := c }
  let op := create_raid_request RAID_WRITE avail2 (toU8 (s1.globtag tag bnum).backupDisk)
    (toU32 (s1.globtag tag bnum).backupDiskPosition)
  busStep s1 op buf

/-- The per-block primary tail loop of the rewrite path (tagline_write lines
340-388), run for the blks - blocksAvailable blocks after the batched head:
at iteration i (localBnum = bnum + avail + i) the candidate disk is redrawn
while it equals the backup disk of the current block or of block bnum; a
block whose primary position is the -1 sentinel is new, so it is cached and
written at the end of the candidate disk, the mapping and the disk cursor
are updated and tagcounter is incremented; otherwise the block is cached
and overwritten in place. Any response validation failure returns
immediately with failure. -/
def primTail (fuel tag bnum avail : Nat) (buf : Nat → Block) :
    Nat → Nat → Nat → SysState → Option WStep
  | _, _, 0, s => some (WStep.ok s)
  | disk, i, n + 1, s =>
    let lb := bnum + avail + i
    match avoidGo fuel
        (fun dd => decide ((s.globtag tag lb).backupDisk = (dd : Int)) ||
          decide ((s.globtag tag bnum).backupDisk = (dd : Int))) disk s with
    | none => none
    | some (disk1, s1) =>
      if (s1.globtag tag lb).diskPosition = -1 then
        let c := put_raid_cache s1.cache (disk1 : Int) (s1.arrayBlocks disk1 + 1) (buf (avail + i))
        let s2 := { s1 with cache := c }
        let op := create_raid_request RAID_WRITE 1 disk1 (toU32 (s2.arrayBlocks disk1 + 1))
        match busStep s2 op (fun _ => buf (avail + i)) with
        | WStep.fail s3 => some (WStep.fail s3)
        | WStep.ok s3 =>
          let tbOld := s3.globtag tag lb
          let s4 := { s3 with
            globtag := updT s3.globtag tag lb
              { tbOld with disk := (disk1 : Int), diskPosition := s3.arrayBlocks disk1 + 1 },
            arrayBlocks := updF s3.arrayBlocks disk1 (s3.arrayBlocks disk1 + 1),
            tagcounter := updF s3.tagcounter tag (s3.tagcounter tag + 1) }
          primTail fuel tag bnum avail buf disk1 (i + 1) n s4
      else
        let tb := s1.globtag tag lb
        let c := put_raid_cache s1.cache tb.disk tb.diskPosition (buf (avail + i))
        let s2 := { s1 with cache := c }
        let op := create_raid_request RAID_WRITE 1 (toU8 tb.disk) (toU32 tb.diskPosition)
        match busStep s2 op (fun _ => buf (avail + i)) with
        | WStep.fail s3 => some (WStep.fail s3)
        | WStep.ok s3 => primTail fuel tag bnum avail buf disk1 (i + 1) n s3

/-- The per-block backup tail loop of the rewrite path (tagline_write lines
408-453): at iteration i (localBnum = bnum + avail2 + i) the candidate
backup disk is redrawn while it equals the primary disk of the current
block or of block bnum; a block whose backup position is -1 is written at
the end of the candidate disk (the cache put stores buffer block
avail + i while the physical WRITE carries buffer block avail2 + i,
exactly as in the C code) and the backup mapping and cursor are updated
(tagcounter is not touched here); otherwise it is overwritten in place. -/
def backupTail (fuel tag bnum avail avail2 : Nat) (buf : Nat → Block) :
    Nat → Nat → Nat → SysState → Option WStep
  | _, _, 0, s => some (WStep.ok s)
  | bdisk, i, n + 1, s =>
    let lb := bnum + avail2 + i
    match avoidGo fuel
        (fun dd => decide ((s.globtag tag lb).disk = (dd : Int)) ||
          decide ((s.globtag tag bnum).disk = (dd : Int))) bdisk s with
    | none => none
    | some (bdisk1, s1) =>
      if (s1.globtag tag lb).backupDiskPosition = -1 then
        let c := put_raid_cache s1.cache (bdisk1 : Int) (s1.arrayBlocks bdisk1 + 1) (buf (avail + i))
        let s2 := { s1 with cache := c }
        let op := create_raid_request RAID_WRITE 1 bdisk1 (toU32 (s2.arrayBlocks bdisk1 + 1))
        match busStep s2 op (fun _ => buf (avail2 + i)) with
        | WStep.fail s3 => some (WStep.fail s3)
        | WStep.ok s3 =>
          let tbOld := s3.globtag tag lb
          let s4 := { s3 with
            globtag := updT s3.globtag tag lb
              { tbOld with
                  backupDisk := (bdisk1 : Int),
                  backupDiskPosition := s3.arrayBlocks bdisk1 + 1 },
            arrayBlocks := updF s3.arrayBlocks bdisk1 (s3.arrayBlocks bdisk1 + 1) }
          backupTail fuel tag bnum avail avail2 buf bdisk1 (i + 1) n s4
      else
        let tb := s1.globtag tag lb
        let c := put_raid_cache s1.cache tb.backupDisk tb.backupDiskPosition (buf (avail + i))
        let s2 := { s1 with cache := c }
        let op := create_raid_request RAID_WRITE 1 (toU8 tb.backupDisk) (toU32 tb.backupDiskPosition)
        match busStep s2 op (fun _ => buf (avail2 + i)) with
        | WStep.fail s3 => some (WStep.fail s3)
        | WStep.ok s3 => backupTail fuel tag bnum avail avail2 buf bdisk1 (i + 1) n s3

/-- The bookkeeping loop at the end of the append path (tagline_write lines
490-504): for each written block, record the primary and backup disks,
advance both disk cursors, and record the post-increment cursors as the
block's positions (the updates are performed in the C statement order, so
a primary disk equal to the backup disk would interleave correctly). -/
def saveGo (tag disk backupDisk : Nat) : Nat → Nat → SysState → SysState
  | _, 0, s => s
  | lb, n + 1, s =>
    let ab1 := updF s.arrayBlocks disk (s.arrayBlocks disk + 1)
    let ab2 := updF ab1 backupDisk (ab1 backupDisk + 1)
    let tb := s.globtag tag lb
    let tb1 := { tb with
      disk := (disk : Int), backupDisk := (backupDisk : Int),
      diskPosition := ab2 disk, backupDiskPosition := ab2 backupDisk }
    saveGo tag disk backupDisk (lb + 1) n
      { s with globtag := updT s.globtag tag lb tb1, arrayBlocks := ab2 }

/-- The append path of tagline_write (lines 458-506), taken when the write
is not a rewrite: cache the blks blocks at the primary disk's next free
positions, issue one batched WRITE there, do the same on the backup disk,
then bump tagcounter by blks and run the bookkeeping loop. -/
def appendWrite (tag bnum blks : Nat) (buf : Nat → Block) (disk backupDisk : Nat)
    (s : SysState) : WStep :=
  let c := putRun (fun i => ((disk : Int), s.arrayBlocks disk + 1 + (i : Int))) buf s.cache 0 blks
  let s1 := { s with cache := c }
  let op := create_raid_request RAID_WRITE blks disk (toU32 (s1.arrayBlocks disk + 1))
  match busStep s1 op buf with
  | WStep.fail s2 => WStep.fail s2
  | WStep.ok s2 =>
    let c2 := putRun (fun i => ((backupDisk : Int), s2.arrayBlocks backupDisk + 1 + (i : Int)))
      buf s2.cache 0 blks
    let s3 := { s2 with cache := c2 }
    let op2 := create_raid_request RAID_WRITE blks backupDisk (toU32 (s3.arrayBlocks backupDisk + 1))
    match busStep s3 op2 buf with
    | WStep.fail s4 => WStep.fail s4
    | WStep.ok s4 =>
      let s5 := { s4 with tagcounter := updF s4.tagcounter tag (s4.tagcounter tag + blks) }
      WStep.ok (saveGo tag disk backupDisk bnum blks s5)

/-- tagline_write from tagline_driver.c. The write is a rewrite when bnum is
below the tagline's counter; two random disks are drawn and made distinct
by chooseDisk; blocksAvailable/blocksAvailable2 are counted only for a
multi-block rewrite and default to 1 otherwise; then the four rewrite
branches (batched when enough contiguous blocks are available, otherwise
batched head plus per-block tail) or the append path run in the C order,
each response-validation failure returning 1 immediately. Fuel bounds the
chooseDisk retry loops; none models an infinite retry loop. -/
def tagline_write (fuel tag bnum blks : Nat) (buf : Nat → Block) (s : SysState) :
    Option (Nat × SysState) :=
  let sa := (randDraw s).2
  let d0 := (randDraw s).1
  let sb := (randDraw sa).2
  let b0 := (randDraw sa).1
  match chooseBothGo fuel d0 b0 sb with
  | none => none
  | some (disk, backupDisk, s1) =>
    let av :=
      if bnum < s.tagcounter tag ∧ blks ≠ 1 then blocksAvail s1.globtag tag bnum blks
      else (1, 1)
    let avail := av.1
    let avail2 := av.2
    if bnum < s.tagcounter tag then
      let r1 := if blks ≤ avail then rewriteBatchPrim tag bnum blks buf s1 else WStep.ok s1
      match r1 with
      | WStep.fail s2 => some (1, s2)
      | WStep.ok s2 =>
        let r2 := if blks ≤ avail2 then rewriteBatchBack tag bnum blks buf s2 else WStep.ok s2
        match r2 with
        | WStep.fail s3 => some (1, s3)
        | WStep.ok s3 =>
          let r3 :=
            if avail < blks then
              match rewritePartialPrim tag bnum avail buf s3 with
              | WStep.fail s4 => some (WStep.fail s4)
              | WStep.ok s4 => primTail fuel tag bnum avail buf disk 0 (blks - avail) s4
            else some (WStep.ok s3)
          match r3 with
          | none => none
          | some (WStep.fail s4) => some (1, s4)
          | some (WStep.ok s4) =>
            let r4 :=
              if avail2 < blks then
                match rewritePartialBack tag bnum avail avail2 buf s4 with
                | WStep.fail s5 => some (WStep.fail s5)
                | WStep.ok s5 => backupTail fuel tag bnum avail avail2 buf backupDisk 0 (blks - avail2) s5
              else some (WStep.ok s4)
            match r4 with
            | none => none
            | some (WStep.fail s5) => some (1, s5)
            | some (WStep.ok s5) => some (0, s5)
    else
      match appendWrite tag bnum blks buf disk backupDisk s1 with
      | WStep.fail s2 => some (1, s2)
      | WStep.ok s2 => some (0, s2)

/-- The block loop of tagline_read: for each of the n remaining blocks
(logical index bnum + i), probe the cache under the block's mapped primary
key; on a hit copy the cached payload into the output buffer, otherwise
issue a single-block READ, copy the delivered data and insert it into the
cache. The (operation, response) pair of the most recent physical READ is
threaded through (it keeps its previous value across cache hits, starting
as the pair (0, 0)), because the C code checks it only after the loop. -/
def readGo (tag bnum : Nat) : Nat → Nat → Nat → Nat → SysState → (Nat → Block) →
    Nat × Nat × SysState × (Nat → Block)
  | _, 0, op, resp, s, out => (op, resp, s, out)
  | i, n + 1, op, resp, s, out =>
    let tb := s.globtag tag (bnum + i)
    let r := get_raid_cache s.cache tb.disk tb.diskPosition
    match r.1 with
    | some v => readGo tag bnum (i + 1) n op resp { s with cache := r.2 } (updF out i v)
    | none =>
      let op1 := create_raid_request RAID_READ 1 (toU8 tb.disk) (toU32 tb.diskPosition)
      let br := client_raid_bus_request { s with cache := r.2 } op1 (fun _ => defaultBlock)
      let v := br.2.2 0
      let c2 := put_raid_cache br.1.cache tb.disk tb.diskPosition v
      readGo tag bnum (i + 1) n op1 br.2.1 { br.1 with cache := c2 } (updF out i v)

/-- tagline_read from tagline_driver.c: run the block loop for blks blocks
and then validate only the final (operation, response) pair; returns the
C result code, the final state and the output buffer contents. -/
def tagline_read (tag bnum blks : Nat) (s : SysState) :
    Nat × SysState × (Nat → Block) :=
  let r := readGo tag bnum 0 blks 0 0 s (fun _ => defaultBlock)
  if extract_raid_response r.2.1 r.1 = 0 then (0, r.2.2.1, r.2.2.2) else (1, r.2.2.1, r.2.2.2)

/-- Intermediate result of the recovery scan: continue with the threaded
(operation, response) pair and the tempbuf contents, or an early failure
return with the state mutated so far. -/
inductive RecR where
  | ok (op resp : Nat) (tmp : Block) (s : SysState)
  | fail (s : SysState)

/-- The primary-copy branch of the recovery scan (raid_disk_recover lines
639-670) for one LogicalAddress (t, j): if the block's primary disk is the
failed disk, fetch its contents (cache first; on a miss READ from the
backup location and insert the result into the cache) — the validation
check after the if/else validates the threaded (operation, response) pair,
which on a cache hit is whatever pair was last issued — then WRITE the
contents back to the recorded primary position and validate. -/
def recPrim (disk t j : Nat) (op resp : Nat) (tmp : Block) (s : SysState) : RecR :=
  let tb := s.globtag t j
  if tb.disk = (disk : Int) then
    let r := get_raid_cache s.cache tb.disk tb.diskPosition
    let s1 := { s with cache := r.2 }
    match r.1 with
    | some v =>
      if extract_raid_response resp op = 0 then
        let op2 := create_raid_request RAID_WRITE 1 (toU8 tb.disk) (toU32 tb.diskPosition)
        let br := client_raid_bus_request s1 op2 (fun _ => v)
        if extract_raid_response br.2.1 op2 = 0 then RecR.ok op2 br.2.1 v br.1
        else RecR.fail br.1
      else RecR.fail s1
    | none =>
      let op1 := create_raid_request RAID_READ 1 (toU8 tb.backupDisk) (toU32 tb.backupDiskPosition)
      let br := client_raid_bus_request s1 op1 (fun _ => defaultBlock)
      let v := br.2.2 0
      let c2 := put_raid_cache br.1.cache tb.disk tb.diskPosition v
      let s2 := { br.1 with cache := c2 }
      if extract_raid_response br.2.1 op1 = 0 then
        let op2 := create_raid_request RAID_WRITE 1 (toU8 tb.disk) (toU32 tb.diskPosition)
        let br2 := client_raid_bus_request s2 op2 (fun _ => v)
        if extract_raid_response br2.2.1 op2 = 0 then RecR.ok op2 br2.2.1 v br2.1
        else RecR.fail br2.1
      else RecR.fail s2
  else RecR.ok op resp tmp s

/-- The backup-copy branch of the recovery scan (raid_disk_recover lines
671-688): if the block's backup disk is the failed disk, READ the block
from its primary location, validate, WRITE it back to the recorded backup
position and validate. -/
def recBack (disk t j : Nat) (op resp : Nat) (tmp : Block) (s : SysState) : RecR :=
  let tb := s.globtag t j
  if tb.backupDisk = (disk : Int) then
    let op1 := create_raid_request RAID_READ 1 (toU8 tb.disk) (toU32 tb.diskPosition)
    let br := client_raid_bus_request s op1 (fun _ => defaultBlock)
    let v := br.2.2 0
    if extract_raid_response br.2.1 op1 = 0 then
      let op2 := create_raid_request RAID_WRITE 1 (toU8 tb.backupDisk) (toU32 tb.backupDiskPosition)
      let br2 := client_raid_bus_request br.1 op2 (fun _ => v)
      if extract_raid_response br2.2.1 op2 = 0 then RecR.ok op2 br2.2.1 v br2.1
      else RecR.fail br2.1
    else RecR.fail br.1
  else RecR.ok op resp tmp s

/-- The inner recovery loop over the blocks j of one tagline t. -/
def recLoopJ (disk t : Nat) : Nat → Nat → Nat → Nat → Block → SysState → RecR
  | _, 0, op, resp, tmp, s => RecR.ok op resp tmp s
  | j, n + 1, op, resp, tmp, s =>
    match recPrim disk t j op resp tmp s with
    | RecR.fail s1 => RecR.fail s1
    | RecR.ok op1 resp1 tmp1 s1 =>
      match recBack disk t j op1 resp1 tmp1 s1 with
      | RecR.fail s2 => RecR.fail s2
      | RecR.ok op2 resp2 tmp2 s2 => recLoopJ disk t (j + 1) n op2 resp2 tmp2 s2

/-- The outer recovery loop over the taglines t (each scanned up to its
tagcounter, which recovery never modifies). -/
def recLoopT (disk : Nat) : Nat → Nat → Nat → Nat → Block → SysState → RecR
  | _, 0, op, resp, tmp, s => RecR.ok op resp tmp s
  | t, n + 1, op, resp, tmp, s =>
    match recLoopJ disk t 0 (s.tagcounter t) op resp tmp s with
    | RecR.fail s1 => RecR.fail s1
    | RecR.ok op1 resp1 tmp1 s1 => recLoopT disk (t + 1) n op1 resp1 tmp1 s1

/-- raid_disk_recover from tagline_driver.c: reformat the failed disk by a
FORMAT request (validated), scan every (tagline, block) pair restoring the
blocks whose primary or backup copy lived on the failed disk, and on full
success mark the disk Ready; any validation failure returns 1 with the
disk's status untouched. The per-disk cursor array[disk].blocks is not
modified anywhere in this function. -/
def raid_disk_recover (disk : Nat) (s : SysState) : Nat × SysState :=
  let op := create_raid_request RAID_FORMAT 0 disk 0
  let br := client_raid_bus_request s op (fun _ => defaultBlock)
  if extract_raid_response br.2.1 op = 0 then
    match recLoopT disk 0 br.1.maxtaglines op br.2.1 defaultBlock br.1 with
    | RecR.fail s2 => (1, s2)
    | RecR.ok _ _ _ s2 =>
      (0, { s2 with arrayStatus := updF s2.arrayStatus disk RAID_DISK_READY })
  else (1, br.1)

/-- The disk loop of raid_disk_signal: for each disk issue a STATUS request
and validate it (failure returns 1); when the response id equals the
RAID_DISK_FAILED sentinel, mark the disk Failed and call
raid_disk_recover — whose return value the C code discards. -/
def signalGo : Nat → Nat → SysState → Nat × SysState
  | _, 0, s => (0, s)
  | d, n + 1, s =>
    let op := create_raid_request RAID_STATUS 0 d 0
    let br := client_raid_bus_request s op (fun _ => defaultBlock)
    if extract_raid_response br.2.1 op = 0 then
      if globRespId br.2.1 = RAID_DISK_FAILED then
        let s2 := { br.1 with arrayStatus := updF br.1.arrayStatus d RAID_DISK_FAILED }
        let r2 := raid_disk_recover d s2
        signalGo (d + 1) n r2.2
      else signalGo (d + 1) n br.1
    else (1, br.1)

/-- raid_disk_signal from tagline_driver.c: scan all RAID_DISKS disks. -/
def raid_disk_signal (s : SysState) : Nat × SysState :=
  signalGo 0 RAID_DISKS s

/-- The FORMAT loop of tagline_driver_init: format every still-uninitialized
disk, validate each response, mark the disk Ready and set its cursor to -1
(the C loop assigns array[currentDisk].blocks = -1 repeatedly). -/
def initFormatGo : Nat → Nat → SysState → Nat × SysState
  | _, 0, s => (0, s)
  | d, n + 1, s =>
    if s.arrayStatus d = RAID_DISK_UNINIT then
      let op := create_raid_request RAID_FORMAT 0 d 0
      let br := client_raid_bus_request s op (fun _ => defaultBlock)
      if extract_raid_response br.2.1 op = 0 then
        initFormatGo (d + 1) n
          { br.1 with
              arrayStatus := updF br.1.arrayStatus d RAID_DISK_READY,
              arrayBlocks := updF br.1.arrayBlocks d (-1) }
      else (1, br.1)
    else initFormatGo (d + 1) n s

/-- tagline_driver_init from tagline_driver.c: build the start state (the C
globals zero-initialize the disk records to Uninitialized status and cursor
0, the freshly allocated Globtag table is filled with -1 sentinels and
tagcounter with zeros, and the cache is initialized with
TAGLINE_CACHE_SIZE slots), issue the INIT request, validate it, and format
every disk. The random stream, fault schedule and physical-failure flags
parameterize the modelled collaborators. -/
def tagline_driver_init (maxlines : Nat) (rs : Nat → Nat) (fa pf : Nat → Bool) :
    Nat × SysState :=
  let s0 : SysState :=
    { maxtaglines := maxlines,
      globtag := fun _ _ =>
        { disk := -1, diskPosition := -1, backupDisk := -1, backupDiskPosition := -1 },
      tagcounter := fun _ => 0,
      arrayStatus := fun _ => RAID_DISK_UNINIT,
      arrayBlocks := fun _ => 0,
      cache := init_raid_cache TAGLINE_CACHE_SIZE,
      disksC := fun _ _ => defaultBlock,
      physFailed := pf, faultAt := fa, randS := rs,
      rndIdx := 0, opIdx := 0, trace := [] }
  let op := create_raid_request RAID_INIT (RAID_DISKBLOCKS / RAID_TRACK_BLOCKS + 3) RAID_DISKS 0
  let br := client_raid_bus_request s0 op (fun _ => defaultBlock)
  if extract_raid_response br.2.1 op = 0 then initFormatGo 0 RAID_DISKS br.1
  else (1, br.1)

/-- Mirror integrity: a mapping's primary and backup disks are equal only
when both are still the -1 unassigned sentinel. -/
def MirrorOK (s : SysState) : Prop :=
  ∀ t b, (s.globtag t b).disk = (s.globtag t b).backupDisk → (s.globtag t b).disk = -1

/-- The cache well-formedness invariant maintained by the driver: positive
capacity, objectCount within capacity, every slot at or above objectCount
still in its initial state (sentinel key, untouched payload), every filled
slot keyed by a real (non-negative) disk, and no two filled slots sharing a
key. -/
def CInv (c : CacheState) : Prop :=
  0 < c.capacity ∧
  c.objectCount ≤ c.capacity ∧
  (∀ j, c.objectCount ≤ j →
    c.entries j = { data := defaultBlock, timestamp := 0, disk := -1, block := -1 }) ∧
  (∀ j, j < c.objectCount → 0 ≤ (c.entries j).disk) ∧
  (∀ j1 j2, j1 < c.objectCount → j2 < c.objectCount → j1 ≠ j2 →
    ¬((c.entries j1).disk = (c.entries j2).disk ∧ (c.entries j1).block = (c.entries j2).block))

/-- The all-unassigned mapping entry, as set up by tagline_driver_init. -/
def sentinelTB : TagBlock :=
  { disk := -1, diskPosition := -1, backupDisk := -1, backupDiskPosition := -1 }

/-- A small post-initialization driver state used by the concrete runs: all
mappings unassigned, empty two-slot cache, all disks Ready with empty
cursors, no physical failures, no response faults, and the identity
pseudo-random stream. -/
def baseState : SysState :=
  { maxtaglines := 1,
    globtag := fun _ _ => sentinelTB,
    tagcounter := fun _ => 0,
    arrayStatus := fun _ => RAID_DISK_READY,
    arrayBlocks := fun _ => -1,
    cache := init_raid_cache 2,
    disksC := fun _ _ => defaultBlock,
    physFailed := fun _ => false,
    faultAt := fun _ => false,
    randS := fun n => n,
    rndIdx := 0, opIdx := 0, trace := [] }

/-- Concrete payload buffer for the round-trip run. -/
def c1buf : Nat → Block := fun i => 100 + i

/-- The round-trip append run: three blocks written at the fresh range of
tagline 0 starting from baseState. -/
def c1res : Option (Nat × SysState) := tagline_write 8 0 0 3 c1buf baseState

/-- The state after the round-trip append run. -/
def c1out : SysState :=
  match c1res with
  | some r => r.2
  | none => baseState

/-- A mapping with two blocks of tagline 0 laid out contiguously: primary on
disk 0 at positions 0 and 1, backup on disk 1 at positions 0 and 1. -/
def c3map : Nat → Nat → TagBlock := fun t b =>
  if t = 0 ∧ b < 2 then
    { disk := 0, diskPosition := (b : Int), backupDisk := 1, backupDiskPosition := (b : Int) }
  else sentinelTB

/-- State for the read-validation run: two mapped blocks, an empty cache,
and a fault schedule corrupting exactly the first issued response. -/
def c3state : SysState :=
  { baseState with
      globtag := c3map,
      tagcounter := fun t => if t = 0 then 2 else 0,
      arrayBlocks := fun d => if d ≤ 1 then 1 else -1,
      cache := init_raid_cache 4,
      faultAt := fun n => decide (n = 0) }

/-- The same two-block state with every response corrupted. -/
def c3all : SysState := { c3state with faultAt := fun _ => true }

/-- A mapping with five blocks of tagline 0 laid out contiguously: primary
on disk 0 at positions 0..4, backup on disk 1 at positions 0..4. -/
def c4map : Nat → Nat → TagBlock := fun t b =>
  if t = 0 ∧ b < 5 then
    { disk := 0, diskPosition := (b : Int), backupDisk := 1, backupDiskPosition := (b : Int) }
  else sentinelTB

/-- State for the rewrite-contiguity run: five contiguously mapped blocks. -/
def c4state : SysState :=
  { baseState with
      globtag := c4map,
      tagcounter := fun t => if t = 0 then 5 else 0,
      arrayBlocks := fun d => if d ≤ 1 then 4 else -1,
      cache := init_raid_cache 8 }

/-- Concrete payload buffer for the rewrite run. -/
def c4buf : Nat → Block := fun i => 50 + i

/-- State for the failed-recovery run: the array reports disk 0 failed, and
the fault schedule corrupts exactly the second issued response (the FORMAT
issued by raid_disk_recover), so reconstruction fails. -/
def c7state : SysState :=
  { baseState with
      physFailed := fun d => decide (d = 0),
      faultAt := fun n => decide (n = 1) }

/-- A state whose every response is corrupted (the first recovery FORMAT
fails immediately). -/
def c7all : SysState := { baseState with faultAt := fun _ => true }

/-- A mapping with a single block of tagline 0: primary on disk 0 at
position 3, backup on disk 1 at position 7. -/
def c8map : Nat → Nat → TagBlock := fun t b =>
  if t = 0 ∧ b = 0 then
    { disk := 0, diskPosition := 3, backupDisk := 1, backupDiskPosition := 7 }
  else sentinelTB

/-- State for the recovery-cursor run: one mapped block, disk 0's allocation
cursor at 5 (disk 1's at 8), fault-free. -/
def c8state : SysState :=
  { baseState with
      globtag := c8map,
      tagcounter := fun t => if t = 0 then 1 else 0,
      arrayBlocks := fun d => if d = 0 then 5 else 8,
      cache := init_raid_cache 4 }

/-- A full two-slot cache holding keys (0,0) and (0,1), the second slot
least recently touched. -/
def c5cache : CacheState :=
  { entries := fun j =>
      if j = 0 then { data := 10, timestamp := 5, disk := 0, block := 0 }
      else if j = 1 then { data := 11, timestamp := 3, disk := 0, block := 1 }
      else { data := defaultBlock, timestamp := 0, disk := -1, block := -1 },
    capacity := 2, objectCount := 2, timea := 5,
    hitC := 0, missC := 0, insertC := 2, getC := 0 }

/-- A four-slot cache holding only the key (0,5): three slots are still in
their never-inserted initial state. -/
def c10cache : CacheState := put_raid_cache (init_raid_cache 4) 0 5 77

/-- A driver state whose cache is c10cache (all mappings unassigned). -/
def c10state : SysState := { baseState with cache := c10cache }

/-- The state carried by a RecR outcome. -/
def recState : RecR → SysState
  | RecR.ok _ _ _ s => s
  | RecR.fail s => s

/-- The driver-table fields (mapping, counters, disk records) that the
recovery scan never modifies. -/
def sameCore (s1 s2 : SysState) : Prop :=
  s1.globtag = s2.globtag ∧ s1.tagcounter = s2.tagcounter ∧
    s1.arrayBlocks = s2.arrayBlocks ∧ s1.arrayStatus = s2.arrayStatus ∧
    s1.maxtaglines = s2.maxtaglines

/-- The rewrite run on c4state: three blocks rewritten at the start of the
fully contiguous five-block range. -/
def c4res : Option (Nat × SysState) := tagline_write 10 0 0 3 c4buf c4state

/-- The state after the rewrite run on c4state. -/
def c4out : SysState :=
  match c4res with
  | some r => r.2
  | none => c4state

/-- The state carried by a WStep outcome. -/
def wState : WStep → SysState
  | WStep.ok s => s
  | WStep.fail s => s

/-- A cache is good for key k with value v when a lookup of k either
returns v or misses (never stale data). -/
def goodAt (c : CacheState) (k : Int × Int) (v : Block) : Prop :=
  lookupC c k.1 k.2 = some v ∨ lookupC c k.1 k.2 = none

/-- The state appendWrite reaches when both WRITE responses validate: the
two cache-fill loops, the two batched WRITEs, the tagcounter bump and the
Globtag bookkeeping loop, written out explicitly. -/
def appendOk (tag bnum blks : Nat) (buf : Nat → Block) (disk bdisk : Nat)
    (s1 : SysState) : SysState :=
  let c := putRun (fun i => ((disk : Int), s1.arrayBlocks disk + 1 + (i : Int))) buf s1.cache 0 blks
  let sA : SysState := { s1 with cache := c }
  let op := create_raid_request RAID_WRITE blks disk (toU32 (sA.arrayBlocks disk + 1))
  let s2 : SysState := { sA with
    disksC := updF sA.disksC (disk % 256)
      (writeBlksAt (sA.disksC (disk % 256)) (toU32 (sA.arrayBlocks disk + 1) % 2 ^ 32)
        (blks % 256) buf),
    opIdx := sA.opIdx + 1,
    trace := sA.trace ++ [op] }
  let c2 := putRun (fun i => ((bdisk : Int), s2.arrayBlocks bdisk + 1 + (i : Int)))
    buf s2.cache 0 blks
  let sB : SysState := { s2 with cache := c2 }
  let op2 := create_raid_request RAID_WRITE blks bdisk (toU32 (sB.arrayBlocks bdisk + 1))
  let s4 : SysState := { sB with
    disksC := updF sB.disksC (bdisk % 256)
      (writeBlksAt (sB.disksC (bdisk % 256)) (toU32 (sB.arrayBlocks bdisk + 1) % 2 ^ 32)
        (blks % 256) buf),
    opIdx := sB.opIdx + 1,
    trace := sB.trace ++ [op2] }
  let s5 : SysState := { s4 with
    tagcounter := updF s4.tagcounter tag (s4.tagcounter tag + blks) }
  saveGo tag disk bdisk bnum blks s5

theorem shl64_small (x k : Nat) (h : x * 2 ^ k < 2 ^ 64) : shl64 x k = x * 2 ^ k :=
  Nat.mod_eq_of_lt h

theorem lor_small (a b k : Nat) (hb : b < 2 ^ k) : a * 2 ^ k ||| b = a * 2 ^ k + b := by
  rw [Nat.mul_comm a (2 ^ k)]
  exact (Nat.mul_add_lt_is_or hb a).symm

theorem shl32_shr32 (r : Nat) : shr (shl64 r 32) 32 = r % 2 ^ 32 := by
  show r * 2 ^ 32 % 2 ^ 64 / 2 ^ 32 = r % 2 ^ 32
  have h1 : (2 : Nat) ^ 64 = 2 ^ 32 * 2 ^ 32 := by norm_num
  rw [h1, Nat.mul_mod_mul_right, Nat.mul_div_cancel _ (by positivity)]

theorem shl31_shr63 (r : Nat) : shr (shl64 r 31) 63 = r / 2 ^ 32 % 2 := by
  show r * 2 ^ 31 % 2 ^ 64 / 2 ^ 63 = r / 2 ^ 32 % 2
  have h1 : (2 : Nat) ^ 64 = 2 ^ 33 * 2 ^ 31 := by norm_num
  have h2 : (2 : Nat) ^ 63 = 2 ^ 32 * 2 ^ 31 := by norm_num
  rw [h1, Nat.mul_mod_mul_right, h2,
    Nat.mul_div_mul_right _ _ (show 0 < (2 : Nat) ^ 31 by positivity)]
  have h3 : (2 : Nat) ^ 33 = 2 ^ 32 * 2 := by norm_num
  rw [h3, Nat.mod_mul_right_div_self]

theorem shl8_shr56 (r : Nat) : shr (shl64 r 8) 56 = r / 2 ^ 48 % 2 ^ 8 := by
  show r * 2 ^ 8 % 2 ^ 64 / 2 ^ 56 = r / 2 ^ 48 % 2 ^ 8
  have h1 : (2 : Nat) ^ 64 = 2 ^ 56 * 2 ^ 8 := by norm_num
  have h2 : (2 : Nat) ^ 56 = 2 ^ 48 * 2 ^ 8 := by norm_num
  rw [h1, Nat.mul_mod_mul_right, h2,
    Nat.mul_div_mul_right _ _ (show 0 < (2 : Nat) ^ 8 by positivity),
    Nat.mod_mul_right_div_self]

theorem land_mask (r : Nat) : 0xFF0000000000 &&& r = 2 ^ 40 * (r / 2 ^ 40 % 2 ^ 8) := by
  apply Nat.eq_of_testBit_eq
  intro i
  have hm : (0xFF0000000000 : Nat) = 2 ^ 40 * (2 ^ 8 - 1) := by norm_num
  have hr : r / 2 ^ 40 = r >>> 40 := (Nat.shiftRight_eq_div_pow r 40).symm
  rw [Nat.testBit_and, hm, Nat.testBit_mul_pow_two, Nat.testBit_mul_pow_two, hr]
  have h255 : (255 : Nat) = 2 ^ 8 - 1 := by norm_num
  have h256 : (256 : Nat) = 2 ^ 8 := by norm_num
  by_cases h40 : 40 ≤ i
  · by_cases h8 : i - 40 < 8
    · have he : 40 + (i - 40) = i := by omega
      simp only [h40, h255, h256, Nat.testBit_two_pow_sub_one, Nat.testBit_mod_two_pow,
        Nat.testBit_shiftRight, he]
      simp [h8]
    · simp only [h40, h255, h256, Nat.testBit_two_pow_sub_one, Nat.testBit_mod_two_pow]
      simp [h8]
  · simp [h40]

theorem land_mask_shr (r : Nat) : shr (0xFF0000000000 &&& r) 40 = r / 2 ^ 40 % 2 ^ 8 := by
  rw [land_mask]
  exact Nat.mul_div_cancel_left _ (by positivity)

theorem pack_lt {t q d x id : Nat} (ht : t < 2 ^ 8) (hq : q < 2 ^ 8) (hd : d < 2 ^ 8)
    (hx : x < 2 ^ 8) (hid : id < 2 ^ 32) : pack t q d x id < 2 ^ 64 := by
  unfold pack
  omega

theorem pack_mod32 {t q d x id : Nat} (hid : id < 2 ^ 32) :
    pack t q d x id % 2 ^ 32 = id := by
  unfold pack
  omega

theorem pack_bit32 {t q d x id : Nat} (hx : x < 2 ^ 8) (hid : id < 2 ^ 32) :
    pack t q d x id / 2 ^ 32 % 2 = x % 2 := by
  unfold pack
  omega

theorem pack_disk {t q d x id : Nat} (hd : d < 2 ^ 8) (hx : x < 2 ^ 8) (hid : id < 2 ^ 32) :
    pack t q d x id / 2 ^ 40 % 2 ^ 8 = d := by
  unfold pack
  omega

theorem pack_quant {t q d x id : Nat} (hq : q < 2 ^ 8) (hd : d < 2 ^ 8) (hx : x < 2 ^ 8)
    (hid : id < 2 ^ 32) : pack t q d x id / 2 ^ 48 % 2 ^ 8 = q := by
  unfold pack
  omega

theorem pack_type {t q d x id : Nat} (ht : t < 2 ^ 8) (hq : q < 2 ^ 8) (hd : d < 2 ^ 8)
    (hx : x < 2 ^ 8) (hid : id < 2 ^ 32) : pack t q d x id / 2 ^ 56 = t := by
  unfold pack
  omega

theorem create_steps (a b c e : Nat) (hb : b < 2 ^ 8) (hc : c < 2 ^ 8)
    (he : e < 2 ^ 32) (ha : a < 2 ^ 8) :
    shl64 (shl64 (shl64 (shl64 a 8 ||| b) 8 ||| c) 8) 32 ||| e = pack a b c 0 e := by
  rw [shl64_small a 8 (by omega), lor_small _ _ _ hb]
  rw [shl64_small (a * 2 ^ 8 + b) 8 (by omega), lor_small _ _ _ hc]
  rw [shl64_small ((a * 2 ^ 8 + b) * 2 ^ 8 + c) 8 (by omega)]
  rw [shl64_small (((a * 2 ^ 8 + b) * 2 ^ 8 + c) * 2 ^ 8) 32 (by omega), lor_small _ _ _ he]
  unfold pack
  ring

theorem create_eq_pack (t q d id : Nat) :
    create_raid_request t q d id = pack (t % 2 ^ 8) (q % 2 ^ 8) (d % 2 ^ 8) 0 (id % 2 ^ 32) := by
  unfold create_raid_request
  dsimp only
  exact create_steps _ _ _ _ (Nat.mod_lt _ (by norm_num)) (Nat.mod_lt _ (by norm_num))
    (Nat.mod_lt _ (by norm_num)) (Nat.mod_lt _ (by norm_num))

theorem extract_pack_eq {t q d x id t0 q0 d0 id0 : Nat}
    (ht : t < 2 ^ 8) (hq : q < 2 ^ 8) (hd : d < 2 ^ 8) (hx : x < 2 ^ 8) (hid : id < 2 ^ 32)
    (ht0 : t0 < 2 ^ 8) (hq0 : q0 < 2 ^ 8) (hd0 : d0 < 2 ^ 8) (hid0 : id0 < 2 ^ 32) :
    extract_raid_response (pack t q d x id) (pack t0 q0 d0 0 id0) =
      if x % 2 = 1 then 1
      else if d ≠ d0 then 1
      else if q ≠ q0 then 1
      else if t ≠ t0 then 1
      else if id ≠ id0 ∧ t ≠ RAID_STATUS then 1 else 0 := by
  have h0 : (0 : Nat) < 2 ^ 8 := by norm_num
  unfold extract_raid_response
  dsimp only
  rw [Nat.mod_eq_of_lt (pack_lt ht hq hd hx hid),
    Nat.mod_eq_of_lt (pack_lt ht0 hq0 hd0 h0 hid0)]
  rw [shl32_shr32, shl32_shr32, shl31_shr63, land_mask_shr, land_mask_shr,
    shl8_shr56, shl8_shr56]
  simp only [shr]
  simp only [pack_bit32 hx hid, pack_mod32 hid, pack_mod32 hid0,
    pack_disk hd hx hid, pack_disk hd0 h0 hid0, pack_quant hq hd hx hid,
    pack_quant hq0 hd0 h0 hid0, pack_type ht hq hd hx hid, pack_type ht0 hq0 hd0 h0 hid0]

theorem pack_add_bit32 (a b c e : Nat) : pack a b c 0 e + 2 ^ 32 = pack a b c 1 e := by
  unfold pack
  ring

theorem extract_echo (t q d id : Nat) :
    extract_raid_response (create_raid_request t q d id) (create_raid_request t q d id) = 0 := by
  have h8 : ∀ y : Nat, y % 2 ^ 8 < 2 ^ 8 := fun y => Nat.mod_lt _ (by norm_num)
  have h32 : id % 2 ^ 32 < 2 ^ 32 := Nat.mod_lt _ (by norm_num)
  rw [create_eq_pack,
    extract_pack_eq (h8 t) (h8 q) (h8 d) (by norm_num) h32 (h8 t) (h8 q) (h8 d) h32]
  simp

theorem extract_statusbit_any (t q d id op2 : Nat) :
    extract_raid_response (create_raid_request t q d id + 2 ^ 32) op2 = 1 := by
  have h8 : ∀ y : Nat, y % 2 ^ 8 < 2 ^ 8 := fun y => Nat.mod_lt _ (by norm_num)
  have h32 : id % 2 ^ 32 < 2 ^ 32 := Nat.mod_lt _ (by norm_num)
  rw [create_eq_pack, pack_add_bit32]
  have hlt : pack (t % 2 ^ 8) (q % 2 ^ 8) (d % 2 ^ 8) 1 (id % 2 ^ 32) < 2 ^ 64 :=
    pack_lt (h8 t) (h8 q) (h8 d) (by norm_num) h32
  unfold extract_raid_response
  dsimp only
  rw [Nat.mod_eq_of_lt hlt, shl31_shr63, pack_bit32 (by norm_num) h32]
  simp

theorem globRespId_pack {a b c x e : Nat} (ha : a < 2 ^ 8) (hb : b < 2 ^ 8) (hc : c < 2 ^ 8)
    (hx : x < 2 ^ 8) (he : e < 2 ^ 32) : globRespId (pack a b c x e) = e := by
  unfold globRespId
  rw [Nat.mod_eq_of_lt (pack_lt ha hb hc hx he), shl32_shr32, pack_mod32 he]

theorem pack_div32_health (a b c e h : Nat) (he : e < 2 ^ 32) :
    pack a b c 0 e / 2 ^ 32 * 2 ^ 32 + h = pack a b c 0 h := by
  unfold pack
  omega

theorem create_decode_t (t q d id : Nat) :
    create_raid_request t q d id / 2 ^ 56 % 256 = t % 256 := by
  have h8 : ∀ y : Nat, y % 2 ^ 8 < 2 ^ 8 := fun y => Nat.mod_lt _ (by norm_num)
  have h32 : id % 2 ^ 32 < 2 ^ 32 := Nat.mod_lt _ (by norm_num)
  rw [create_eq_pack, pack_type (h8 t) (h8 q) (h8 d) (by norm_num) h32]
  have : (2 : Nat) ^ 8 = 256 := by norm_num
  rw [← this, Nat.mod_mod_of_dvd _ (by norm_num)]

theorem create_decode_q (t q d id : Nat) :
    create_raid_request t q d id / 2 ^ 48 % 256 = q % 256 := by
  have h8 : ∀ y : Nat, y % 2 ^ 8 < 2 ^ 8 := fun y => Nat.mod_lt _ (by norm_num)
  have h32 : id % 2 ^ 32 < 2 ^ 32 := Nat.mod_lt _ (by norm_num)
  have h256 : (256 : Nat) = 2 ^ 8 := by norm_num
  rw [create_eq_pack, h256, pack_quant (h8 q) (h8 d) (by norm_num) h32]

theorem create_decode_d (t q d id : Nat) :
    create_raid_request t q d id / 2 ^ 40 % 256 = d % 256 := by
  have h8 : ∀ y : Nat, y % 2 ^ 8 < 2 ^ 8 := fun y => Nat.mod_lt _ (by norm_num)
  have h32 : id % 2 ^ 32 < 2 ^ 32 := Nat.mod_lt _ (by norm_num)
  have h256 : (256 : Nat) = 2 ^ 8 := by norm_num
  rw [create_eq_pack, h256, pack_disk (h8 d) (by norm_num) h32]

theorem create_decode_id (t q d id : Nat) :
    create_raid_request t q d id % 2 ^ 32 = id % 2 ^ 32 := by
  have h32 : id % 2 ^ 32 < 2 ^ 32 := Nat.mod_lt _ (by norm_num)
  rw [create_eq_pack, pack_mod32 h32]

theorem updF_same {α : Type} (f : Nat → α) (j : Nat) (v : α) : updF f j v j = v := by
  simp [updF]

theorem updF_ne {α : Type} (f : Nat → α) {i j : Nat} (v : α) (h : i ≠ j) : updF f j v i = f i := by
  simp [updF, h]

theorem scanKey_none_iff (f : Nat → CEntry) (d b : Int) :
    ∀ n i, (scanKey f d b n i = none ↔
      ∀ l, i ≤ l → l < i + n → ¬((f l).disk = d ∧ (f l).block = b)) := by
  intro n
  induction n with
  | zero =>
    intro i
    simp only [scanKey]
    constructor
    · intro _ l h1 h2
      omega
    · intro _
      trivial
  | succ m ih =>
    intro i
    unfold scanKey
    by_cases h : (f i).disk = d ∧ (f i).block = b
    · simp only [h, if_true, if_pos]
      constructor
      · intro hc
        exact absurd hc (by simp)
      · intro hall
        exact absurd h (hall i (le_refl i) (by omega))
    · rw [if_neg h, ih (i + 1)]
      constructor
      · intro hall l h1 h2
        rcases Nat.eq_or_lt_of_le h1 with he | hlt
        · rw [← he]
          exact h
        · exact hall l hlt (by omega)
      · intro hall l h1 h2
        exact hall l (by omega) (by omega)

theorem scanKey_some_spec (f : Nat → CEntry) (d b : Int) :
    ∀ n i j, scanKey f d b n i = some j →
      i ≤ j ∧ j < i + n ∧ (f j).disk = d ∧ (f j).block = b ∧
        ∀ l, i ≤ l → l < j → ¬((f l).disk = d ∧ (f l).block = b) := by
  intro n
  induction n with
  | zero =>
    intro i j h
    exact absurd h (by simp [scanKey])
  | succ m ih =>
    intro i j h
    unfold scanKey at h
    by_cases hm : (f i).disk = d ∧ (f i).block = b
    · rw [if_pos hm] at h
      cases h
      refine ⟨le_refl _, by omega, hm.1, hm.2, ?_⟩
      intro l h1 h2
      omega
    · rw [if_neg hm] at h
      obtain ⟨h1, h2, h3, h4, h5⟩ := ih (i + 1) j h
      refine ⟨by omega, by omega, h3, h4, ?_⟩
      intro l hl1 hl2
      rcases Nat.eq_or_lt_of_le hl1 with he | hlt
      · rw [← he]
        exact hm
      · exact h5 l hlt hl2

theorem scanKey_find (f : Nat → CEntry) (d b : Int) :
    ∀ n i j, i ≤ j → j < i + n → (f j).disk = d → (f j).block = b →
      (∀ l, i ≤ l → l < j → ¬((f l).disk = d ∧ (f l).block = b)) →
      scanKey f d b n i = some j := by
  intro n
  induction n with
  | zero =>
    intro i j h1 h2
    omega
  | succ m ih =>
    intro i j h1 h2 h3 h4 h5
    unfold scanKey
    rcases Nat.eq_or_lt_of_le h1 with he | hlt
    · rw [if_pos (by rw [he]; exact ⟨h3, h4⟩)]
      rw [he]
    · rw [if_neg (h5 i (le_refl i) hlt)]
      exact ih (i + 1) j hlt (by omega) h3 h4 (fun l hl1 hl2 => h5 l (by omega) hl2)

theorem scanKey_congr (f g : Nat → CEntry) (d b : Int) :
    ∀ n i, (∀ l, i ≤ l → l < i + n → f l = g l) →
      scanKey f d b n i = scanKey g d b n i := by
  intro n
  induction n with
  | zero =>
    intro i _
    rfl
  | succ m ih =>
    intro i h
    unfold scanKey
    rw [h i (le_refl i) (by omega)]
    by_cases hm : (g i).disk = d ∧ (g i).block = b
    · rw [if_pos hm, if_pos hm]
    · rw [if_neg hm, if_neg hm]
      exact ih (i + 1) (fun l h1 h2 => h l (by omega) (by omega))

theorem oldestGo_spec (f : Nat → CEntry) :
    ∀ n i best, best ≤ i →
      (oldestGo f n i best ((f best).timestamp) = best ∨
        (i ≤ oldestGo f n i best ((f best).timestamp) ∧
          oldestGo f n i best ((f best).timestamp) < i + n)) ∧
      (f (oldestGo f n i best ((f best).timestamp))).timestamp ≤ (f best).timestamp ∧
      (∀ l, i ≤ l → l < i + n →
        (f (oldestGo f n i best ((f best).timestamp))).timestamp ≤ (f l).timestamp) ∧
      (oldestGo f n i best ((f best).timestamp) ≠ best →
        (f (oldestGo f n i best ((f best).timestamp))).timestamp < (f best).timestamp) ∧
      (∀ l, i ≤ l → l < i + n → l < oldestGo f n i best ((f best).timestamp) →
        (f (oldestGo f n i best ((f best).timestamp))).timestamp < (f l).timestamp) := by
  intro n
  induction n with
  | zero =>
    intro i best hbi
    unfold oldestGo
    refine ⟨Or.inl rfl, le_refl _, ?_, ?_, ?_⟩
    · intro l h1 h2
      omega
    · intro h
      exact absurd rfl h
    · intro l h1 h2
      omega
  | succ m ih =>
    intro i best hbi
    unfold oldestGo
    by_cases hc : (f i).timestamp < (f best).timestamp
    · rw [if_pos hc]
      obtain ⟨g1, g2, g3, g4, g5⟩ := ih (i + 1) i (by omega)
      refine ⟨?_, ?_, ?_, ?_, ?_⟩
      · rcases g1 with h | h
        · exact Or.inr ⟨by omega, by omega⟩
        · exact Or.inr ⟨by omega, by omega⟩
      · exact le_trans g2 (le_of_lt hc)
      · intro l h1 h2
        rcases Nat.eq_or_lt_of_le h1 with he | hlt
        · rw [← he]
          exact g2
        · exact g3 l hlt (by omega)
      · intro _
        exact lt_of_le_of_lt g2 hc
      · intro l h1 h2 h3
        rcases Nat.eq_or_lt_of_le h1 with he | hlt
        · rw [← he]
          have : oldestGo f m (i + 1) i ((f i).timestamp) ≠ i := by omega
          exact g4 this
        · exact g5 l hlt (by omega) h3
    · rw [if_neg hc]
      obtain ⟨g1, g2, g3, g4, g5⟩ := ih (i + 1) best (by omega)
      refine ⟨?_, g2, ?_, g4, ?_⟩
      · rcases g1 with h | h
        · exact Or.inl h
        · exact Or.inr ⟨by omega, by omega⟩
      · intro l h1 h2
        rcases Nat.eq_or_lt_of_le h1 with he | hlt
        · rw [← he]
          exact le_trans g2 (by omega)
        · exact g3 l hlt (by omega)
      · intro l h1 h2 h3
        rcases Nat.eq_or_lt_of_le h1 with he | hlt
        · rw [← he] at h3 ⊢
          have hjb : oldestGo f m (i + 1) best ((f best).timestamp) ≠ best := by
            rcases g1 with hb | hr
            · omega
            · omega
          have hbt : (f best).timestamp ≤ (f i).timestamp := by omega
          exact lt_of_lt_of_le (g4 hjb) hbt
        · exact g5 l hlt (by omega) h3

theorem oldestIdx_spec (c : CacheState) (hpos : 0 < c.capacity) :
    oldestIdx c < c.capacity ∧
    (∀ l, l < c.capacity → (c.entries (oldestIdx c)).timestamp ≤ (c.entries l).timestamp) ∧
    (∀ l, l < oldestIdx c → (c.entries (oldestIdx c)).timestamp < (c.entries l).timestamp) := by
  obtain ⟨g1, g2, g3, g4, g5⟩ := oldestGo_spec c.entries c.capacity 0 0 (le_refl 0)
  unfold oldestIdx
  refine ⟨?_, ?_, ?_⟩
  · rcases g1 with h | h
    · omega
    · omega
  · intro l hl
    exact g3 l (Nat.zero_le l) (by omega)
  · intro l hl
    have hlc : l < c.capacity := by
      rcases g1 with h | h
      · omega
      · omega
    exact g5 l (Nat.zero_le l) (by omega) hl

theorem scanKey_upd_nomatch (f : Nat → CEntry) (d b : Int) (j : Nat) (e : CEntry)
    (hnew : ¬(e.disk = d ∧ e.block = b)) (hold : ¬((f j).disk = d ∧ (f j).block = b)) :
    ∀ n i, scanKey (updF f j e) d b n i = scanKey f d b n i := by
  intro n
  induction n with
  | zero =>
    intro i
    rfl
  | succ m ih =>
    intro i
    unfold scanKey
    by_cases hij : i = j
    · rw [hij, updF_same, if_neg hnew, if_neg hold]
      exact ih (j + 1)
    · rw [updF_ne _ _ hij]
      by_cases hm : (f i).disk = d ∧ (f i).block = b
      · rw [if_pos hm, if_pos hm]
      · rw [if_neg hm, if_neg hm]
        exact ih (i + 1)

theorem scanKey_upd_samekey (f : Nat → CEntry) (d b : Int) (j : Nat) (e : CEntry)
    (hdisk : e.disk = (f j).disk) (hblk : e.block = (f j).block) :
    ∀ n i, scanKey (updF f j e) d b n i = scanKey f d b n i := by
  intro n
  induction n with
  | zero =>
    intro i
    rfl
  | succ m ih =>
    intro i
    unfold scanKey
    by_cases hij : i = j
    · rw [hij, updF_same]
      by_cases hm : (f j).disk = d ∧ (f j).block = b
      · rw [if_pos (by rw [hdisk, hblk]; exact hm), if_pos hm]
      · rw [if_neg (by rw [hdisk, hblk]; exact hm), if_neg hm]
        exact ih (j + 1)
    · rw [updF_ne _ _ hij]
      by_cases hm : (f i).disk = d ∧ (f i).block = b
      · rw [if_pos hm, if_pos hm]
      · rw [if_neg hm, if_neg hm]
        exact ih (i + 1)

theorem put_capacity (c : CacheState) (dsk blk : Int) (v : Block) :
    (put_raid_cache c dsk blk v).capacity = c.capacity := by
  unfold put_raid_cache
  dsimp only
  split
  · split <;> rfl
  · split <;> rfl

theorem get_snd_capacity (c : CacheState) (dsk blk : Int) :
    (get_raid_cache c dsk blk).2.capacity = c.capacity := by
  unfold get_raid_cache
  dsimp only
  split <;> rfl

theorem get_fst_eq_lookup (c : CacheState) (dsk blk : Int) :
    (get_raid_cache c dsk blk).1 = lookupC c dsk blk := by
  unfold get_raid_cache lookupC
  dsimp only
  split <;> rfl

theorem CInv_put (c : CacheState) (dsk blk : Int) (v : Block)
    (hI : CInv c) (hd : 0 ≤ dsk) : CInv (put_raid_cache c dsk blk v) := by
  obtain ⟨hpos, hoc, hsent, hkey, huniq⟩ := hI
  unfold put_raid_cache
  dsimp only
  split
  · next hlt =>
    split
    · next i heq =>
      obtain ⟨_, hin, hdk, hbk, hbef⟩ := scanKey_some_spec c.entries dsk blk _ _ _ heq
      simp only [CInv]
      refine ⟨hpos, hoc, ?_, ?_, ?_⟩
      · intro j hj
        rw [updF_ne _ _ (by omega)]
        exact hsent j hj
      · intro j hj
        by_cases hji : j = i
        · rw [hji, updF_same]
          exact hd
        · rw [updF_ne _ _ hji]
          exact hkey j hj
      · intro j1 j2 hj1 hj2 hne
        by_cases h1 : j1 = i <;> by_cases h2 : j2 = i
        · omega
        · rw [h1, updF_same, updF_ne _ _ h2]
          intro hcon
          have hc1 : dsk = (c.entries j2).disk := hcon.1
          have hc2 : blk = (c.entries j2).block := hcon.2
          exact huniq i j2 (by omega) hj2 (by omega) ⟨by rw [hdk]; exact hc1, by rw [hbk]; exact hc2⟩
        · rw [h2, updF_same, updF_ne _ _ h1]
          intro hcon
          have hc1 : (c.entries j1).disk = dsk := hcon.1
          have hc2 : (c.entries j1).block = blk := hcon.2
          exact huniq j1 i hj1 (by omega) (by omega) ⟨by rw [hdk]; exact hc1, by rw [hbk]; exact hc2⟩
        · rw [updF_ne _ _ h1, updF_ne _ _ h2]
          exact huniq j1 j2 hj1 hj2 hne
    · next heq =>
      have hnone := (scanKey_none_iff c.entries dsk blk _ _).1 heq
      simp only [CInv]
      refine ⟨hpos, by omega, ?_, ?_, ?_⟩
      · intro j hj
        rw [updF_ne _ _ (by omega)]
        exact hsent j (by omega)
      · intro j hj
        by_cases hji : j = c.objectCount
        · rw [hji, updF_same]
          exact hd
        · rw [updF_ne _ _ hji]
          exact hkey j (by omega)
      · intro j1 j2 hj1 hj2 hne
        by_cases h1 : j1 = c.objectCount <;> by_cases h2 : j2 = c.objectCount
        · omega
        · rw [h1, updF_same, updF_ne _ _ h2]
          intro hcon
          have hc1 : dsk = (c.entries j2).disk := hcon.1
          have hc2 : blk = (c.entries j2).block := hcon.2
          exact hnone j2 (by omega) (by omega) ⟨hc1.symm, hc2.symm⟩
        · rw [h2, updF_same, updF_ne _ _ h1]
          intro hcon
          have hc1 : (c.entries j1).disk = dsk := hcon.1
          have hc2 : (c.entries j1).block = blk := hcon.2
          exact hnone j1 (by omega) (by omega) ⟨hc1, hc2⟩
        · rw [updF_ne _ _ h1, updF_ne _ _ h2]
          exact huniq j1 j2 (by omega) (by omega) hne
  · next hge =>
    have hocc : c.objectCount = c.capacity := by omega
    split
    · next i heq =>
      obtain ⟨_, hin, hdk, hbk, hbef⟩ := scanKey_some_spec c.entries dsk blk _ _ _ heq
      simp only [CInv]
      refine ⟨hpos, hoc, ?_, ?_, ?_⟩
      · intro j hj
        rw [updF_ne _ _ (by omega)]
        exact hsent j hj
      · intro j hj
        by_cases hji : j = i
        · rw [hji, updF_same]
          exact hd
        · rw [updF_ne _ _ hji]
          exact hkey j hj
      · intro j1 j2 hj1 hj2 hne
        by_cases h1 : j1 = i <;> by_cases h2 : j2 = i
        · omega
        · rw [h1, updF_same, updF_ne _ _ h2]
          intro hcon
          have hc1 : dsk = (c.entries j2).disk := hcon.1
          have hc2 : blk = (c.entries j2).block := hcon.2
          exact huniq i j2 (by omega) hj2 (by omega) ⟨by rw [hdk]; exact hc1, by rw [hbk]; exact hc2⟩
        · rw [h2, updF_same, updF_ne _ _ h1]
          intro hcon
          have hc1 : (c.entries j1).disk = dsk := hcon.1
          have hc2 : (c.entries j1).block = blk := hcon.2
          exact huniq j1 i hj1 (by omega) (by omega) ⟨by rw [hdk]; exact hc1, by rw [hbk]; exact hc2⟩
        · rw [updF_ne _ _ h1, updF_ne _ _ h2]
          exact huniq j1 j2 hj1 hj2 hne
    · next heq =>
      have hnone := (scanKey_none_iff c.entries dsk blk _ _).1 heq
      obtain ⟨hjlt, _, _⟩ := oldestIdx_spec c hpos
      simp only [CInv]
      refine ⟨hpos, hoc, ?_, ?_, ?_⟩
      · intro j hj
        rw [updF_ne _ _ (by omega)]
        exact hsent j hj
      · intro j hj
        by_cases hji : j = oldestIdx c
        · rw [hji, updF_same]
          exact hd
        · rw [updF_ne _ _ hji]
          exact hkey j hj
      · intro j1 j2 hj1 hj2 hne
        by_cases h1 : j1 = oldestIdx c <;> by_cases h2 : j2 = oldestIdx c
        · omega
        · rw [h1, updF_same, updF_ne _ _ h2]
          intro hcon
          have hc1 : dsk = (c.entries j2).disk := hcon.1
          have hc2 : blk = (c.entries j2).block := hcon.2
          exact hnone j2 (by omega) (by omega) ⟨hc1.symm, hc2.symm⟩
        · rw [h2, updF_same, updF_ne _ _ h1]
          intro hcon
          have hc1 : (c.entries j1).disk = dsk := hcon.1
          have hc2 : (c.entries j1).block = blk := hcon.2
          exact hnone j1 (by omega) (by omega) ⟨hc1, hc2⟩
        · rw [updF_ne _ _ h1, updF_ne _ _ h2]
          exact huniq j1 j2 hj1 hj2 hne

theorem lookupC_put_self (c : CacheState) (dsk blk : Int) (v : Block)
    (hI : CInv c) : lookupC (put_raid_cache c dsk blk v) dsk blk = some v := by
  obtain ⟨hpos, hoc, hsent, hkey, huniq⟩ := hI
  unfold put_raid_cache
  dsimp only
  split
  · next hlt =>
    split
    · next i heq =>
      obtain ⟨_, hin, hdk, hbk, hbef⟩ := scanKey_some_spec _ _ _ _ _ _ heq
      unfold lookupC
      dsimp only
      rw [scanKey_find _ dsk blk c.capacity 0 i (Nat.zero_le i) (by omega)
        (by rw [updF_same]) (by rw [updF_same])
        (fun l hl0 hli => by rw [updF_ne _ _ (by omega)]; exact hbef l hl0 hli)]
      dsimp only
      rw [updF_same]
    · next heq =>
      have hnone := (scanKey_none_iff c.entries dsk blk _ _).1 heq
      unfold lookupC
      dsimp only
      rw [scanKey_find _ dsk blk c.capacity 0 c.objectCount (Nat.zero_le _) (by omega)
        (by rw [updF_same]) (by rw [updF_same])
        (fun l hl0 hli => by rw [updF_ne _ _ (by omega)]; exact hnone l (by omega) (by omega))]
      dsimp only
      rw [updF_same]
  · next hge =>
    split
    · next i heq =>
      obtain ⟨_, hin, hdk, hbk, hbef⟩ := scanKey_some_spec _ _ _ _ _ _ heq
      unfold lookupC
      dsimp only
      rw [scanKey_find _ dsk blk c.capacity 0 i (Nat.zero_le i) (by omega)
        (by rw [updF_same]) (by rw [updF_same])
        (fun l hl0 hli => by rw [updF_ne _ _ (by omega)]; exact hbef l hl0 hli)]
      dsimp only
      rw [updF_same]
    · next heq =>
      have hnone := (scanKey_none_iff c.entries dsk blk _ _).1 heq
      obtain ⟨hjlt, _, _⟩ := oldestIdx_spec c hpos
      unfold lookupC
      dsimp only
      rw [scanKey_find _ dsk blk c.capacity 0 (oldestIdx c) (Nat.zero_le _) (by omega)
        (by rw [updF_same]) (by rw [updF_same])
        (fun l hl0 hli => by rw [updF_ne _ _ (by omega)]; exact hnone l (by omega) (by omega))]
      dsimp only
      rw [updF_same]

theorem lookupC_upd_nomatch (c : CacheState) (j : Nat) (e : CEntry) (d2 b2 : Int)
    (hnew : ¬(e.disk = d2 ∧ e.block = b2))
    (hold : ¬((c.entries j).disk = d2 ∧ (c.entries j).block = b2)) :
    ∀ cap, (match scanKey (updF c.entries j e) d2 b2 cap 0 with
      | some i => some ((updF c.entries j e i).data)
      | none => none) = (match scanKey c.entries d2 b2 cap 0 with
      | some i => some ((c.entries i).data)
      | none => none) := by
  intro cap
  rw [scanKey_upd_nomatch c.entries d2 b2 j e hnew hold]
  cases hscan : scanKey c.entries d2 b2 cap 0 with
  | none => rfl
  | some l =>
    obtain ⟨_, _, hld, hlb, _⟩ := scanKey_some_spec _ _ _ _ _ _ hscan
    have hlj : l ≠ j := by
      intro hc
      rw [hc] at hld hlb
      exact hold ⟨hld, hlb⟩
    dsimp only
    rw [updF_ne _ _ hlj]

theorem lookupC_put_other (c : CacheState) (dsk blk d2 b2 : Int) (v : Block)
    (hI : CInv c) (hd2 : 0 ≤ d2) (hne : ¬(d2 = dsk ∧ b2 = blk)) :
    lookupC (put_raid_cache c dsk blk v) d2 b2 = lookupC c d2 b2 ∨
      lookupC (put_raid_cache c dsk blk v) d2 b2 = none := by
  obtain ⟨hpos, hoc, hsent, hkey, huniq⟩ := hI
  have hnew : ¬((CEntry.mk v (c.timea + 1) dsk blk).disk = d2 ∧
      (CEntry.mk v (c.timea + 1) dsk blk).block = b2) := by
    intro hc
    exact hne ⟨hc.1.symm, hc.2.symm⟩
  unfold put_raid_cache
  dsimp only
  split
  · next hlt =>
    split
    · next i heq =>
      obtain ⟨_, hin, hdk, hbk, hbef⟩ := scanKey_some_spec _ _ _ _ _ _ heq
      left
      unfold lookupC
      dsimp only
      exact lookupC_upd_nomatch c i _ d2 b2 hnew
        (by intro hc; exact hne ⟨by rw [← hc.1, hdk], by rw [← hc.2, hbk]⟩) c.capacity
    · next heq =>
      left
      unfold lookupC
      dsimp only
      refine lookupC_upd_nomatch c c.objectCount _ d2 b2 hnew ?_ c.capacity
      rw [hsent c.objectCount (le_refl _)]
      intro hc
      have : (-1 : Int) = d2 := hc.1
      omega
  · next hge =>
    split
    · next i heq =>
      obtain ⟨_, hin, hdk, hbk, hbef⟩ := scanKey_some_spec _ _ _ _ _ _ heq
      left
      unfold lookupC
      dsimp only
      exact lookupC_upd_nomatch c i _ d2 b2 hnew
        (by intro hc; exact hne ⟨by rw [← hc.1, hdk], by rw [← hc.2, hbk]⟩) c.capacity
    · next heq =>
      have hnone := (scanKey_none_iff c.entries dsk blk _ _).1 heq
      have hocc : c.objectCount = c.capacity := by omega
      obtain ⟨hjlt, _, _⟩ := oldestIdx_spec c hpos
      by_cases hmatch : (c.entries (oldestIdx c)).disk = d2 ∧ (c.entries (oldestIdx c)).block = b2
      · right
        unfold lookupC
        dsimp only
        rw [(scanKey_none_iff _ d2 b2 c.capacity 0).2 ?_]
        intro l _ hl
        by_cases hlj : l = oldestIdx c
        · rw [hlj, updF_same]
          exact hnew
        · rw [updF_ne _ _ hlj]
          intro hc
          exact huniq l (oldestIdx c) (by omega) (by omega) hlj
            ⟨by rw [hc.1, hmatch.1], by rw [hc.2, hmatch.2]⟩
      · left
        unfold lookupC
        dsimp only
        exact lookupC_upd_nomatch c (oldestIdx c) _ d2 b2 hnew hmatch c.capacity

theorem CInv_get (c : CacheState) (dsk blk : Int) (hI : CInv c) (hd : 0 ≤ dsk) :
    CInv (get_raid_cache c dsk blk).2 := by
  obtain ⟨hpos, hoc, hsent, hkey, huniq⟩ := hI
  unfold get_raid_cache
  dsimp only
  split
  · next i heq =>
    obtain ⟨_, hin, hdk, hbk, hbef⟩ := scanKey_some_spec _ _ _ _ _ _ heq
    have hioc : i < c.objectCount := by
      by_contra hcon
      have := hsent i (by omega)
      rw [this] at hdk
      have : (-1 : Int) = dsk := hdk
      omega
    have hkeq : ∀ l, ((updF c.entries i { c.entries i with timestamp := c.timea + 1 }) l).disk
        = (c.entries l).disk ∧
        ((updF c.entries i { c.entries i with timestamp := c.timea + 1 }) l).block
        = (c.entries l).block := by
      intro l
      by_cases hl : l = i
      · rw [hl, updF_same]
        exact ⟨rfl, rfl⟩
      · rw [updF_ne _ _ hl]
        exact ⟨rfl, rfl⟩
    simp only [CInv]
    refine ⟨hpos, hoc, ?_, ?_, ?_⟩
    · intro j hj
      rw [updF_ne _ _ (by omega)]
      exact hsent j hj
    · intro j hj
      rw [(hkeq j).1]
      exact hkey j hj
    · intro j1 j2 hj1 hj2 hne
      rw [(hkeq j1).1, (hkeq j1).2, (hkeq j2).1, (hkeq j2).2]
      exact huniq j1 j2 hj1 hj2 hne
  · next heq =>
    exact ⟨hpos, hoc, hsent, hkey, huniq⟩

theorem lookupC_get (c : CacheState) (dsk blk d2 b2 : Int) :
    lookupC (get_raid_cache c dsk blk).2 d2 b2 = lookupC c d2 b2 := by
  unfold get_raid_cache
  dsimp only
  split
  · next i heq =>
    unfold lookupC
    dsimp only
    rw [scanKey_upd_samekey c.entries d2 b2 i { c.entries i with timestamp := c.timea + 1 }
      rfl rfl]
    cases hscan : scanKey c.entries d2 b2 c.capacity 0 with
    | none => rfl
    | some l =>
      dsimp only
      by_cases hli : l = i
      · rw [hli, updF_same]
      · rw [updF_ne _ _ hli]
  · next heq =>
    rfl

/-- C6: validating an unchanged echo of any encoded request succeeds, and
flipping the type, disk number, block count, or (for non-STATUS types) the
id of the simulated response makes validation report failure (1). -/
theorem C6_codec_roundtrip_flips :
    (∀ t q d id : Nat,
      extract_raid_response (create_raid_request t q d id) (create_raid_request t q d id) = 0) ∧
    (∀ t q d id t2 : Nat, t2 % 2 ^ 8 ≠ t % 2 ^ 8 →
      extract_raid_response (create_raid_request t2 q d id) (create_raid_request t q d id) = 1) ∧
    (∀ t q d id d2 : Nat, d2 % 2 ^ 8 ≠ d % 2 ^ 8 →
      extract_raid_response (create_raid_request t q d2 id) (create_raid_request t q d id) = 1) ∧
    (∀ t q d id q2 : Nat, q2 % 2 ^ 8 ≠ q % 2 ^ 8 →
      extract_raid_response (create_raid_request t q2 d id) (create_raid_request t q d id) = 1) ∧
    (∀ t q d id id2 : Nat, t % 2 ^ 8 ≠ RAID_STATUS → id2 % 2 ^ 32 ≠ id % 2 ^ 32 →
      extract_raid_response (create_raid_request t q d id2) (create_raid_request t q d id) = 1) := by
  have h8 : ∀ y : Nat, y % 2 ^ 8 < 2 ^ 8 := fun y => Nat.mod_lt _ (by norm_num)
  have h32 : ∀ y : Nat, y % 2 ^ 32 < 2 ^ 32 := fun y => Nat.mod_lt _ (by norm_num)
  refine ⟨fun t q d id => extract_echo t q d id, ?_, ?_, ?_, ?_⟩
  · intro t q d id t2 hne
    rw [create_eq_pack, create_eq_pack,
      extract_pack_eq (h8 t2) (h8 q) (h8 d) (by norm_num) (h32 id) (h8 t) (h8 q) (h8 d) (h32 id)]
    have hne2 : t2 % 256 ≠ t % 256 := by omega
    simp [hne2]
  · intro t q d id d2 hne
    rw [create_eq_pack, create_eq_pack,
      extract_pack_eq (h8 t) (h8 q) (h8 d2) (by norm_num) (h32 id) (h8 t) (h8 q) (h8 d) (h32 id)]
    have hne2 : d2 % 256 ≠ d % 256 := by omega
    simp [hne2]
  · intro t q d id q2 hne
    rw [create_eq_pack, create_eq_pack,
      extract_pack_eq (h8 t) (h8 q2) (h8 d) (by norm_num) (h32 id) (h8 t) (h8 q) (h8 d) (h32 id)]
    have hne2 : q2 % 256 ≠ q % 256 := by omega
    simp [hne2]
  · intro t q d id id2 hts hne
    rw [create_eq_pack, create_eq_pack,
      extract_pack_eq (h8 t) (h8 q) (h8 d) (by norm_num) (h32 id2) (h8 t) (h8 q) (h8 d) (h32 id)]
    have hne2 : id2 % 4294967296 ≠ id % 4294967296 := by omega
    have hts2 : t % 256 ≠ RAID_STATUS := by omega
    simp [hne2, hts2]

/-- Witness for C6: a concrete unchanged echo validates, and a concrete
disk-number flip is rejected. -/
theorem C6_witness :
    extract_raid_response (create_raid_request 3 2 1 7) (create_raid_request 3 2 1 7) = 0 ∧
      ((2 : Nat) % 2 ^ 8 ≠ 1 % 2 ^ 8 ∧
        extract_raid_response (create_raid_request 3 2 2 7) (create_raid_request 3 2 1 7) = 1) :=
  ⟨C6_codec_roundtrip_flips.1 3 2 1 7,
    by decide, C6_codec_roundtrip_flips.2.2.1 3 2 1 7 2 (by decide)⟩

/-- C9: response validation inspects only the status bit of the reserved
byte: setting any combination of the seven reserved bits 33-39 on an
otherwise unchanged echo still validates as success, for every request. -/
theorem C9_reserved_bits_ignored :
    ∀ t q d id v : Nat, v < 2 ^ 7 →
      extract_raid_response (create_raid_request t q d id + v * 2 ^ 33)
        (create_raid_request t q d id) = 0 := by
  intro t q d id v hv
  have h8 : ∀ y : Nat, y % 2 ^ 8 < 2 ^ 8 := fun y => Nat.mod_lt _ (by norm_num)
  have h32 : id % 2 ^ 32 < 2 ^ 32 := Nat.mod_lt _ (by norm_num)
  have hshift : pack (t % 2 ^ 8) (q % 2 ^ 8) (d % 2 ^ 8) 0 (id % 2 ^ 32) + v * 2 ^ 33 =
      pack (t % 2 ^ 8) (q % 2 ^ 8) (d % 2 ^ 8) (2 * v) (id % 2 ^ 32) := by
    unfold pack
    ring
  rw [create_eq_pack, hshift,
    extract_pack_eq (h8 t) (h8 q) (h8 d) (by omega) h32 (h8 t) (h8 q) (h8 d) h32]
  simp [Nat.mul_mod_right]

/-- Witness for C9: setting reserved bits 33, 35 and 39 (v = 85) on the echo
of a concrete WRITE request still validates. -/
theorem C9_witness :
    (85 : Nat) < 2 ^ 7 ∧
      extract_raid_response (create_raid_request 3 2 1 7 + 85 * 2 ^ 33)
        (create_raid_request 3 2 1 7) = 0 :=
  ⟨by decide, C9_reserved_bits_ignored 3 2 1 7 85 (by decide)⟩

/-- C5: when the cache is full and put is called with an absent key, the
evicted slot is the one with the globally smallest logicalClock (ties to
the lowest slot index): that slot gets the new entry, every other slot is
untouched, and a subsequent get of the evicted key misses. -/
theorem C5_eviction_lru (c : CacheState) (dsk blk : Int) (v : Block)
    (hpos : 0 < c.capacity)
    (hfull : c.objectCount = c.capacity)
    (habs : ∀ j, j < c.capacity → ¬((c.entries j).disk = dsk ∧ (c.entries j).block = blk))
    (hdist : ∀ j1, j1 < c.capacity → ∀ j2, j2 < c.capacity → j1 ≠ j2 →
      ¬((c.entries j1).disk = (c.entries j2).disk ∧
        (c.entries j1).block = (c.entries j2).block)) :
    oldestIdx c < c.capacity ∧
    (∀ l, l < c.capacity →
      (c.entries (oldestIdx c)).timestamp ≤ (c.entries l).timestamp) ∧
    (∀ l, l < oldestIdx c →
      (c.entries (oldestIdx c)).timestamp < (c.entries l).timestamp) ∧
    (put_raid_cache c dsk blk v).entries (oldestIdx c) =
      { data := v, timestamp := c.timea + 1, disk := dsk, block := blk } ∧
    (∀ l, l ≠ oldestIdx c → (put_raid_cache c dsk blk v).entries l = c.entries l) ∧
    (get_raid_cache (put_raid_cache c dsk blk v)
      (c.entries (oldestIdx c)).disk (c.entries (oldestIdx c)).block).1 = none := by
  obtain ⟨hjlt, hmin, htie⟩ := oldestIdx_spec c hpos
  have hscan : scanKey c.entries dsk blk c.capacity 0 = none :=
    (scanKey_none_iff c.entries dsk blk c.capacity 0).2
      (fun l _ hl => habs l (by omega))
  have hput : put_raid_cache c dsk blk v =
      { c with
          timea := c.timea + 1, missC := c.missC + 1, insertC := c.insertC + 1,
          entries := updF c.entries (oldestIdx c)
            { data := v, timestamp := c.timea + 1, disk := dsk, block := blk } } := by
    unfold put_raid_cache
    rw [if_neg (by omega)]
    dsimp only
    rw [hscan]
  refine ⟨hjlt, hmin, htie, ?_, ?_, ?_⟩
  · rw [hput]
    exact updF_same _ _ _
  · intro l hl
    rw [hput]
    exact updF_ne _ _ hl
  · rw [get_fst_eq_lookup, hput]
    unfold lookupC
    dsimp only
    rw [(scanKey_none_iff _ _ _ _ _).2 ?_]
    intro l _ hl
    by_cases hlj : l = oldestIdx c
    · rw [hlj, updF_same]
      intro hc
      exact habs (oldestIdx c) hjlt ⟨hc.1.symm, hc.2.symm⟩
    · rw [updF_ne _ _ hlj]
      exact hdist l (by omega) (oldestIdx c) hjlt hlj

/-- Witness for C5: a concrete full two-slot cache where slot 1 is the least
recently touched; inserting the absent key (0, 2) evicts slot 1 and a get
of the evicted key (0, 1) then misses. -/
theorem C5_witness :
    0 < c5cache.capacity ∧ c5cache.objectCount = c5cache.capacity ∧
    oldestIdx c5cache = 1 ∧
    (put_raid_cache c5cache 0 2 12).entries 1 =
      { data := 12, timestamp := 6, disk := 0, block := 2 } ∧
    (get_raid_cache (put_raid_cache c5cache 0 2 12)
      (c5cache.entries 1).disk (c5cache.entries 1).block).1 = none := by
  have h := C5_eviction_lru c5cache 0 2 12 (by decide) (by decide)
    (by decide) (by decide)
  refine ⟨by decide, by decide, by decide, ?_, ?_⟩
  · have h4 := h.2.2.2.1
    rw [show oldestIdx c5cache = 1 by decide] at h4
    exact h4
  · have h6 := h.2.2.2.2.2
    rw [show oldestIdx c5cache = 1 by decide] at h6
    exact h6

/-- C10: when the cache has spare capacity, a get with the (-1, -1)
sentinel key (the key tagline_read probes for a never-written logical
block) hits the first never-inserted slot (index objectCount) and returns
its never-stored initial payload instead of reporting a miss; concretely,
reading a never-written block of tagline 0 in c10state succeeds without
issuing any physical operation and returns the uninitialized payload. -/
theorem C10_sentinel_get_hit (c : CacheState)
    (hlt : c.objectCount < c.capacity)
    (hsent : ∀ j, c.objectCount ≤ j → c.entries j =
      { data := defaultBlock, timestamp := 0, disk := -1, block := -1 })
    (hkey : ∀ j, j < c.objectCount → 0 ≤ (c.entries j).disk) :
    scanKey c.entries (-1) (-1) c.capacity 0 = some c.objectCount ∧
    (get_raid_cache c (-1) (-1)).1 = some defaultBlock ∧
    (get_raid_cache c (-1) (-1)).2.hitC = c.hitC + 1 ∧
    (tagline_read 0 0 1 c10state).1 = 0 ∧
    (tagline_read 0 0 1 c10state).2.1.trace = c10state.trace ∧
    (tagline_read 0 0 1 c10state).2.2 0 = defaultBlock := by
  have hscan : scanKey c.entries (-1) (-1) c.capacity 0 = some c.objectCount := by
    refine scanKey_find c.entries (-1) (-1) c.capacity 0 c.objectCount (Nat.zero_le _)
      (by omega) (by rw [hsent c.objectCount (le_refl _)]) (by rw [hsent c.objectCount (le_refl _)])
      ?_
    intro l _ hl
    intro hc
    have := hkey l (by omega)
    omega
  refine ⟨hscan, ?_, ?_, by decide, by decide, by decide⟩
  · rw [get_fst_eq_lookup]
    unfold lookupC
    rw [hscan]
    dsimp only
    rw [hsent c.objectCount (le_refl _)]
  · unfold get_raid_cache
    rw [hscan]

/-- Witness for C10: the concrete four-slot cache holding one entry; the
sentinel get hits slot 1 (never inserted) and returns the uninitialized
payload. -/
theorem C10_witness :
    c10cache.objectCount < c10cache.capacity ∧
    scanKey c10cache.entries (-1) (-1) c10cache.capacity 0 = some c10cache.objectCount ∧
    (get_raid_cache c10cache (-1) (-1)).1 = some defaultBlock := by
  have h := C10_sentinel_get_hit c10cache (by decide)
    (fun j hj => by
      have hj1 : 1 ≤ j := by
        have : c10cache.objectCount = 1 := by decide
        omega
      show c10cache.entries j = _
      unfold c10cache init_raid_cache put_raid_cache
      dsimp only
      rw [if_pos (by decide)]
      dsimp [scanKey]
      rw [updF_ne _ _ (by omega)])
    (fun j hj => by
      have : j = 0 := by
        have : c10cache.objectCount = 1 := by decide
        omega
      rw [this]
      decide)
  exact ⟨by decide, h.1, h.2.1⟩

theorem sameCore_refl (s : SysState) : sameCore s s := ⟨rfl, rfl, rfl, rfl, rfl⟩

theorem sameCore_trans {s1 s2 s3 : SysState} (h1 : sameCore s1 s2) (h2 : sameCore s2 s3) :
    sameCore s1 s3 := by
  obtain ⟨a1, b1, c1, d1, e1⟩ := h1
  obtain ⟨a2, b2, c2, d2, e2⟩ := h2
  exact ⟨a1.trans a2, b1.trans b2, c1.trans c2, d1.trans d2, e1.trans e2⟩

theorem recPrim_core (disk t j op resp : Nat) (tmp : Block) (s : SysState) :
    sameCore (recState (recPrim disk t j op resp tmp s)) s := by
  unfold recPrim
  dsimp only
  repeat' split
  all_goals exact ⟨rfl, rfl, rfl, rfl, rfl⟩

theorem recBack_core (disk t j op resp : Nat) (tmp : Block) (s : SysState) :
    sameCore (recState (recBack disk t j op resp tmp s)) s := by
  unfold recBack
  dsimp only
  repeat' split
  all_goals exact ⟨rfl, rfl, rfl, rfl, rfl⟩

theorem recLoopJ_core (disk t : Nat) :
    ∀ n j op resp tmp s, sameCore (recState (recLoopJ disk t j n op resp tmp s)) s := by
  intro n
  induction n with
  | zero =>
    intro j op resp tmp s
    exact sameCore_refl s
  | succ m ih =>
    intro j op resp tmp s
    unfold recLoopJ
    cases hp : recPrim disk t j op resp tmp s with
    | fail s1 =>
      have h1 := recPrim_core disk t j op resp tmp s
      rw [hp] at h1
      exact h1
    | ok op1 resp1 tmp1 s1 =>
      have hc1 := recPrim_core disk t j op resp tmp s
      rw [hp] at hc1
      dsimp only
      cases hb : recBack disk t j op1 resp1 tmp1 s1 with
      | fail s2 =>
        have hc2 := recBack_core disk t j op1 resp1 tmp1 s1
        rw [hb] at hc2
        exact sameCore_trans hc2 hc1
      | ok op2 resp2 tmp2 s2 =>
        have hc2 := recBack_core disk t j op1 resp1 tmp1 s1
        rw [hb] at hc2
        dsimp only
        exact sameCore_trans (sameCore_trans (ih (j + 1) op2 resp2 tmp2 s2) hc2) hc1

theorem recLoopT_core (disk : Nat) :
    ∀ n t op resp tmp s, sameCore (recState (recLoopT disk t n op resp tmp s)) s := by
  intro n
  induction n with
  | zero =>
    intro t op resp tmp s
    exact sameCore_refl s
  | succ m ih =>
    intro t op resp tmp s
    unfold recLoopT
    cases hj : recLoopJ disk t 0 (s.tagcounter t) op resp tmp s with
    | fail s1 =>
      have h1 := recLoopJ_core disk t (s.tagcounter t) 0 op resp tmp s
      rw [hj] at h1
      exact h1
    | ok op1 resp1 tmp1 s1 =>
      have hc1 := recLoopJ_core disk t (s.tagcounter t) 0 op resp tmp s
      rw [hj] at hc1
      dsimp only
      exact sameCore_trans (ih (t + 1) op1 resp1 tmp1 s1) hc1

/-- C8 counterexample: recovering disk 0 from c8state (cursor at 5, one
block mapped at primary position 3) succeeds, reformats and writes the
block back at its previously recorded position 3, yet the DiskRecord
cursor still holds its old value 5 — it is never reset (the reset value
used by initialization is -1). -/
theorem C8_counterexample :
    (raid_disk_recover 0 c8state).1 = 0 ∧
    c8state.arrayBlocks 0 = 5 ∧
    (raid_disk_recover 0 c8state).2.arrayBlocks 0 = 5 ∧
    ¬(raid_disk_recover 0 c8state).2.arrayBlocks 0 = -1 ∧
    ((raid_disk_recover 0 c8state).2.trace.map
      (fun op => (op / 2 ^ 56 % 256, op / 2 ^ 40 % 256, op % 2 ^ 32))) =
      [(RAID_FORMAT, 0, 0), (RAID_READ, 1, 7), (RAID_WRITE, 0, 3)] := by
  refine ⟨by decide, by decide, by decide, by decide, by decide⟩

/-- C8 amended: raid_disk_recover reformats the failed disk through a FORMAT
request and writes the lost blocks back at their previously recorded
positions, but it never modifies any disk's DiskRecord allocation cursor
(array[disk].blocks); the cursor is not reset. -/
theorem C8_recover_keeps_cursor :
    ∀ disk s, (raid_disk_recover disk s).2.arrayBlocks = s.arrayBlocks := by
  intro disk s
  unfold raid_disk_recover
  dsimp only
  split
  · next hok =>
    split
    · next s2 heq =>
      have hc := recLoopT_core disk
        ((client_raid_bus_request s (create_raid_request RAID_FORMAT 0 disk 0)
          (fun _ => defaultBlock)).1.maxtaglines) 0
        (create_raid_request RAID_FORMAT 0 disk 0)
        ((client_raid_bus_request s (create_raid_request RAID_FORMAT 0 disk 0)
          (fun _ => defaultBlock)).2.1) defaultBlock
        ((client_raid_bus_request s (create_raid_request RAID_FORMAT 0 disk 0)
          (fun _ => defaultBlock)).1)
      rw [heq] at hc
      exact hc.2.2.1
    · next op2 resp2 tmp2 s2 heq =>
      have hc := recLoopT_core disk
        ((client_raid_bus_request s (create_raid_request RAID_FORMAT 0 disk 0)
          (fun _ => defaultBlock)).1.maxtaglines) 0
        (create_raid_request RAID_FORMAT 0 disk 0)
        ((client_raid_bus_request s (create_raid_request RAID_FORMAT 0 disk 0)
          (fun _ => defaultBlock)).2.1) defaultBlock
        ((client_raid_bus_request s (create_raid_request RAID_FORMAT 0 disk 0)
          (fun _ => defaultBlock)).1)
      rw [heq] at hc
      exact hc.2.2.1
  · next hfail =>
    rfl

/-- C7 counterexample: in c7state the array reports disk 0 failed and the
FORMAT issued by recovery gets a corrupted response, so reconstruction
aborts right after it began (the trace shows the STATUS probe, the FORMAT,
then only the remaining STATUS probes); the disk stays marked Failed, yet
raid_disk_signal returns 0 (success) to its caller because it discards
raid_disk_recover's result. -/
theorem C7_counterexample :
    c7state.physFailed 0 = true ∧
    c7state.faultAt 1 = true ∧
    (raid_disk_signal c7state).1 = 0 ∧
    (raid_disk_signal c7state).2.arrayStatus 0 = RAID_DISK_FAILED ∧
    ((raid_disk_signal c7state).2.trace.map
      (fun op => (op / 2 ^ 56 % 256, op / 2 ^ 40 % 256))) =
      [(RAID_STATUS, 0), (RAID_FORMAT, 0), (RAID_STATUS, 1), (RAID_STATUS, 2),
        (RAID_STATUS, 3)] := by
  refine ⟨rfl, rfl, by decide, by decide, by decide⟩

/-- C7 amended: when reconstruction fails, raid_disk_recover returns 1 and
leaves every disk's status untouched (so a disk marked Failed beforehand
remains Failed), but the enclosing raid_disk_signal discards that result:
there are runs in which reconstruction fails and raid_disk_signal still
reports success with the disk left marked Failed. -/
theorem C7_recover_failure_not_propagated :
    (∀ disk s, (raid_disk_recover disk s).1 = 1 →
      (raid_disk_recover disk s).2.arrayStatus = s.arrayStatus) ∧
    (∃ s : SysState, (raid_disk_signal s).1 = 0 ∧
      (raid_disk_signal s).2.arrayStatus 0 = RAID_DISK_FAILED) := by
  constructor
  · intro disk s
    unfold raid_disk_recover
    dsimp only
    generalize hbr : client_raid_bus_request s (create_raid_request RAID_FORMAT 0 disk 0)
      (fun _ => defaultBlock) = br
    have hcore : br.1.arrayStatus = s.arrayStatus := by
      rw [← hbr]
      rfl
    by_cases hok : extract_raid_response br.2.1 (create_raid_request RAID_FORMAT 0 disk 0) = 0
    · rw [if_pos hok]
      cases heq : recLoopT disk 0 br.1.maxtaglines (create_raid_request RAID_FORMAT 0 disk 0)
          br.2.1 defaultBlock br.1 with
      | fail s2 =>
        intro _
        have hc := recLoopT_core disk br.1.maxtaglines 0
          (create_raid_request RAID_FORMAT 0 disk 0) br.2.1 defaultBlock br.1
        rw [heq] at hc
        exact hc.2.2.2.1.trans hcore
      | ok op2 resp2 tmp2 s2 =>
        intro hfail
        simp at hfail
    · rw [if_neg hok]
      intro _
      exact hcore
  · exact ⟨c7state, by decide, by decide⟩

/-- Witness for C7's amended theorem: a concrete failing reconstruction (all
responses corrupted) returns 1 and leaves the status table unchanged. -/
theorem C7_witness :
    (raid_disk_recover 0 c7all).1 = 1 ∧
      (raid_disk_recover 0 c7all).2.arrayStatus = c7all.arrayStatus :=
  ⟨by decide, C7_recover_failure_not_propagated.1 0 c7all (by decide)⟩

/-- C4 at the failing input: every block of the rewritten range 0..2 of
c4state is physically contiguous on the primary disk (positions 0..4 on
disk 0), so contiguousPrimary is at least 3; yet the counting loop of
tagline_write computes blocksAvailable = 2 — its fourth conjunct compares
a position with itself plus the loop index and thus only holds at index
0 — and the run issues a batched 2-block WRITE followed by a single-block
fallback WRITE on each side instead of one batched 3-block WRITE. -/
theorem C4_eval :
    c4map 0 1 = { disk := 0, diskPosition := 1, backupDisk := 1, backupDiskPosition := 1 } ∧
    c4map 0 2 = { disk := 0, diskPosition := 2, backupDisk := 1, backupDiskPosition := 2 } ∧
    blocksAvail c4map 0 0 3 = (2, 2) ∧
    c4res = some (0, c4out) ∧
    (c4out.trace.map
      (fun op => (op / 2 ^ 56 % 256, op / 2 ^ 48 % 256, op / 2 ^ 40 % 256, op % 2 ^ 32))) =
      [(RAID_WRITE, 2, 0, 0), (RAID_WRITE, 1, 0, 2), (RAID_WRITE, 2, 1, 0),
        (RAID_WRITE, 1, 1, 2)] ∧
    ¬(3 ∈ c4out.trace.map (fun op => op / 2 ^ 48 % 256)) := by
  refine ⟨by decide, by decide, by decide, rfl, by decide, by decide⟩

theorem client_resp_fault (s : SysState) (op1 : Nat) (p : Nat → Block)
    (hf : s.faultAt s.opIdx = true) (ht : ¬op1 / 2 ^ 56 % 256 = RAID_STATUS) :
    (client_raid_bus_request s op1 p).2.1 = op1 + 2 ^ 32 := by
  unfold client_raid_bus_request
  dsimp only
  rw [if_neg ht, if_pos hf]


theorem readGo_fault_invariant (tag bnum : Nat) :
    ∀ n i op resp s out, (∀ k, s.faultAt k = true) →
      ((readGo tag bnum i n op resp s out).2.2.1.trace = s.trace ∧
        (readGo tag bnum i n op resp s out).1 = op ∧
        (readGo tag bnum i n op resp s out).2.1 = resp) ∨
      extract_raid_response (readGo tag bnum i n op resp s out).2.1
        (readGo tag bnum i n op resp s out).1 = 1 := by
  intro n
  induction n with
  | zero =>
    intro i op resp s out hf
    exact Or.inl ⟨rfl, rfl, rfl⟩
  | succ m ih =>
    intro i op resp s out hf
    unfold readGo
    dsimp only
    cases hget : (get_raid_cache s.cache (s.globtag tag (bnum + i)).disk
        (s.globtag tag (bnum + i)).diskPosition).1 with
    | some v =>
      dsimp only
      rcases ih (i + 1) op resp { s with
          cache := (get_raid_cache s.cache (s.globtag tag (bnum + i)).disk
            (s.globtag tag (bnum + i)).diskPosition).2 }
        (updF out i v) (fun k => hf k) with hleft | hright
      · exact Or.inl hleft
      · exact Or.inr hright
    | none =>
      dsimp only
      set tbd := (s.globtag tag (bnum + i)).disk with htbd
      set tbp := (s.globtag tag (bnum + i)).diskPosition with htbp
      set op1 := create_raid_request RAID_READ 1 (toU8 tbd) (toU32 tbp) with hop1
      set br := client_raid_bus_request
        { s with cache := (get_raid_cache s.cache tbd tbp).2 } op1
        (fun _ => defaultBlock) with hbrx
      have hfault : br.2.1 = op1 + 2 ^ 32 := by
        rw [hbrx]
        exact client_resp_fault _ _ _ (hf _) (by rw [hop1, create_decode_t]; decide)
      rcases ih (i + 1) op1 br.2.1
        { br.1 with cache := put_raid_cache br.1.cache tbd tbp (br.2.2 0) }
        (updF out i (br.2.2 0)) (fun k => hf k) with hleft | hright
      · right
        rw [hleft.2.1, hleft.2.2, hfault]
        rw [hop1]
        exact extract_statusbit_any _ _ _ _ _
      · exact Or.inr hright

theorem tagline_read_state (tag bnum blks : Nat) (s : SysState) :
    (tagline_read tag bnum blks s).2.1 =
      (readGo tag bnum 0 blks 0 0 s (fun _ => defaultBlock)).2.2.1 := by
  unfold tagline_read
  dsimp only
  split <;> rfl

/-- C3 counterexample: in c3state both mapped blocks miss the empty cache,
so two physical READs are issued; the fault schedule corrupts the first
response (the corrupted echo of the first READ request fails validation,
second conjunct), yet tagline_read returns 0 because only the last
(operation, response) pair is checked after the loop. -/
theorem C3_counterexample :
    c3state.faultAt 0 = true ∧
    extract_raid_response (create_raid_request RAID_READ 1 0 0 + 2 ^ 32)
      (create_raid_request RAID_READ 1 0 0) = 1 ∧
    (tagline_read 0 0 2 c3state).1 = 0 ∧
    ((tagline_read 0 0 2 c3state).2.1.trace.map
      (fun op => (op / 2 ^ 56 % 256, op % 2 ^ 32))) = [(RAID_READ, 0), (RAID_READ, 1)] := by
  refine ⟨rfl, by decide, by decide, by decide⟩

/-- C3 amended: tagline_read validates only the (operation, response) pair
left over after the block loop — the pair of the last issued physical
READ. If every response is corrupted and at least one physical READ is
issued (the trace grew), the call fails; but a corrupted response on an
earlier block with a clean final response does not make the call fail
(witnessed by a run issuing two READs whose first response is corrupted
yet which returns success). -/
theorem C3_only_last_response_checked :
    (∀ s tag bnum blks, (∀ k, s.faultAt k = true) →
      (tagline_read tag bnum blks s).2.1.trace ≠ s.trace →
      (tagline_read tag bnum blks s).1 = 1) ∧
    (∃ s : SysState, s.faultAt 0 = true ∧ (tagline_read 0 0 2 s).1 = 0 ∧
      (tagline_read 0 0 2 s).2.1.trace.length = s.trace.length + 2) := by
  constructor
  · intro s tag bnum blks hf hgrow
    rw [tagline_read_state] at hgrow
    rcases readGo_fault_invariant tag bnum blks 0 0 0 s (fun _ => defaultBlock) hf
      with hl | hr
    · exact absurd hl.1 hgrow
    · unfold tagline_read
      dsimp only
      rw [if_neg (by omega)]
  · exact ⟨c3state, rfl, by decide, by decide⟩

/-- Witness for C3's amended theorem: with every response corrupted, the
two-block read of c3all issues physical READs (its trace grows) and
reports failure. -/
theorem C3_witness :
    (∀ k, c3all.faultAt k = true) ∧
    (tagline_read 0 0 2 c3all).2.1.trace ≠ c3all.trace ∧
    (tagline_read 0 0 2 c3all).1 = 1 :=
  ⟨fun _ => rfl, by decide,
    C3_only_last_response_checked.1 c3all 0 0 2 (fun _ => rfl) (by decide)⟩

theorem busStep_globtag (s : SysState) (op : Nat) (p : Nat → Block) :
    (wState (busStep s op p)).globtag = s.globtag := by
  unfold busStep
  dsimp only
  split <;> rfl

theorem readGo_globtag (tag bnum : Nat) :
    ∀ n i op resp s out, (readGo tag bnum i n op resp s out).2.2.1.globtag = s.globtag := by
  intro n
  induction n with
  | zero =>
    intro i op resp s out
    rfl
  | succ m ih =>
    intro i op resp s out
    unfold readGo
    dsimp only
    cases hget : (get_raid_cache s.cache (s.globtag tag (bnum + i)).disk
        (s.globtag tag (bnum + i)).diskPosition).1 with
    | some v =>
      dsimp only
      exact (ih (i + 1) _ _ _ _).trans rfl
    | none =>
      dsimp only
      exact (ih (i + 1) _ _ _ _).trans rfl

theorem MirrorOK_of_globtag {s1 s2 : SysState} (h : s1.globtag = s2.globtag)
    (hm : MirrorOK s2) : MirrorOK s1 := by
  intro t b
  rw [h]
  exact hm t b

theorem raid_disk_recover_globtag (disk : Nat) (s : SysState) :
    (raid_disk_recover disk s).2.globtag = s.globtag := by
  unfold raid_disk_recover
  dsimp only
  split
  · next hok =>
    split
    · next s2 heq =>
      have hc := recLoopT_core disk
        ((client_raid_bus_request s (create_raid_request RAID_FORMAT 0 disk 0)
          (fun _ => defaultBlock)).1.maxtaglines) 0
        (create_raid_request RAID_FORMAT 0 disk 0)
        ((client_raid_bus_request s (create_raid_request RAID_FORMAT 0 disk 0)
          (fun _ => defaultBlock)).2.1) defaultBlock
        ((client_raid_bus_request s (create_raid_request RAID_FORMAT 0 disk 0)
          (fun _ => defaultBlock)).1)
      rw [heq] at hc
      exact hc.1
    · next op2 resp2 tmp2 s2 heq =>
      have hc := recLoopT_core disk
        ((client_raid_bus_request s (create_raid_request RAID_FORMAT 0 disk 0)
          (fun _ => defaultBlock)).1.maxtaglines) 0
        (create_raid_request RAID_FORMAT 0 disk 0)
        ((client_raid_bus_request s (create_raid_request RAID_FORMAT 0 disk 0)
          (fun _ => defaultBlock)).2.1) defaultBlock
        ((client_raid_bus_request s (create_raid_request RAID_FORMAT 0 disk 0)
          (fun _ => defaultBlock)).1)
      rw [heq] at hc
      exact hc.1
  · next hfail =>
    rfl

theorem signalGo_globtag : ∀ n d s, (signalGo d n s).2.globtag = s.globtag := by
  intro n
  induction n with
  | zero =>
    intro d s
    rfl
  | succ m ih =>
    intro d s
    unfold signalGo
    dsimp only
    split
    · next hok =>
      split
      · next hfailed =>
        exact (ih (d + 1) _).trans ((raid_disk_recover_globtag d _).trans rfl)
      · next hwell =>
        exact (ih (d + 1) _).trans rfl
    · next hbad =>
      rfl

theorem chooseBothGo_spec :
    ∀ fuel d b s r, chooseBothGo fuel d b s = some r →
      r.1 ≠ r.2.1 ∧ r.2.2.globtag = s.globtag ∧ r.2.2.tagcounter = s.tagcounter ∧
        r.2.2.arrayBlocks = s.arrayBlocks ∧ r.2.2.cache = s.cache ∧
        r.2.2.faultAt = s.faultAt ∧ r.2.2.opIdx = s.opIdx ∧ r.2.2.trace = s.trace ∧
        r.2.2.disksC = s.disksC ∧ r.2.2.arrayStatus = s.arrayStatus ∧
        r.2.2.maxtaglines = s.maxtaglines ∧ r.2.2.physFailed = s.physFailed ∧
        r.2.2.randS = s.randS ∧ (r.1 < RAID_DISKS ∨ r.1 = d) ∧
        (r.2.1 < RAID_DISKS ∨ r.2.1 = b) := by
  intro fuel
  induction fuel with
  | zero =>
    intro d b s r h
    unfold chooseBothGo at h
    by_cases hdb : d ≠ b
    · rw [if_pos hdb] at h
      cases h
      exact ⟨hdb, rfl, rfl, rfl, rfl, rfl, rfl, rfl, rfl, rfl, rfl, rfl, rfl,
        Or.inr rfl, Or.inr rfl⟩
    · rw [if_neg hdb] at h
      exact absurd h (by simp)
  | succ m ih =>
    intro d b s r h
    unfold chooseBothGo at h
    by_cases hdb : d ≠ b
    · rw [if_pos hdb] at h
      cases h
      exact ⟨hdb, rfl, rfl, rfl, rfl, rfl, rfl, rfl, rfl, rfl, rfl, rfl, rfl,
        Or.inr rfl, Or.inr rfl⟩
    · rw [if_neg hdb] at h
      obtain ⟨h1, h2, h3, h4, h5, h6, h7, h8, h9, h10, h11, h12, h13, h14, h15⟩ := ih _ _ _ _ h
      refine ⟨h1, h2, h3, h4, h5, h6, h7, h8, h9, h10, h11, h12, h13, ?_, ?_⟩
      · left
        rcases h14 with hlt | heq
        · exact hlt
        · rw [heq]
          exact Nat.mod_lt _ (by norm_num [RAID_DISKS])
      · left
        rcases h15 with hlt | heq
        · exact hlt
        · rw [heq]
          exact Nat.mod_lt _ (by norm_num [RAID_DISKS])

theorem updT_same (g : Nat → Nat → TagBlock) (t b : Nat) (v : TagBlock) :
    updT g t b v t b = v := by
  simp [updT, updF]

theorem updT_ne (g : Nat → Nat → TagBlock) (t b : Nat) (v : TagBlock) {t2 b2 : Nat}
    (h : ¬(t2 = t ∧ b2 = b)) : updT g t b v t2 b2 = g t2 b2 := by
  unfold updT updF
  by_cases ht : t2 = t
  · rw [if_pos ht, ht]
    rw [if_neg (fun hb => h ⟨ht, hb⟩)]
  · rw [if_neg ht]

theorem chooseOneGo_spec :
    ∀ fuel old s r, chooseOneGo fuel old s = some r → r.2.globtag = s.globtag := by
  intro fuel
  induction fuel with
  | zero =>
    intro old s r h
    exact absurd h (by simp [chooseOneGo])
  | succ m ih =>
    intro old s r h
    unfold chooseOneGo at h
    dsimp only at h
    split at h
    · exact (ih _ _ _ h).trans rfl
    · cases h
      rfl

theorem avoidGo_spec :
    ∀ fuel bad d s r, avoidGo fuel bad d s = some r →
      bad r.1 = false ∧ r.2.globtag = s.globtag := by
  intro fuel
  induction fuel with
  | zero =>
    intro bad d s r h
    unfold avoidGo at h
    split at h
    · next hok =>
      cases h
      exact ⟨hok, rfl⟩
    · exact absurd h (by simp)
  | succ m ih =>
    intro bad d s r h
    unfold avoidGo at h
    split at h
    · next hok =>
      cases h
      exact ⟨hok, rfl⟩
    · next hbad =>
      dsimp only at h
      cases hone : chooseOneGo (m + 1) d s with
      | none =>
        rw [hone] at h
        exact absurd h (by simp)
      | some r1 =>
        rw [hone] at h
        obtain ⟨hb, hg⟩ := ih _ _ _ _ h
        exact ⟨hb, hg.trans (chooseOneGo_spec _ _ _ _ hone)⟩

theorem rewriteBatchPrim_globtag (tag bnum blks : Nat) (buf : Nat → Block) (s : SysState) :
    (wState (rewriteBatchPrim tag bnum blks buf s)).globtag = s.globtag := by
  unfold rewriteBatchPrim
  exact (busStep_globtag _ _ _).trans rfl

theorem rewriteBatchBack_globtag (tag bnum blks : Nat) (buf : Nat → Block) (s : SysState) :
    (wState (rewriteBatchBack tag bnum blks buf s)).globtag = s.globtag := by
  unfold rewriteBatchBack
  exact (busStep_globtag _ _ _).trans rfl

theorem rewritePartialPrim_globtag (tag bnum avail : Nat) (buf : Nat → Block) (s : SysState) :
    (wState (rewritePartialPrim tag bnum avail buf s)).globtag = s.globtag := by
  unfold rewritePartialPrim
  exact (busStep_globtag _ _ _).trans rfl

theorem rewritePartialBack_globtag (tag bnum avail avail2 : Nat) (buf : Nat → Block)
    (s : SysState) :
    (wState (rewritePartialBack tag bnum avail avail2 buf s)).globtag = s.globtag := by
  unfold rewritePartialBack
  exact (busStep_globtag _ _ _).trans rfl

theorem primTail_mirror (fuel tag bnum avail : Nat) (buf : Nat → Block) :
    ∀ n disk i s res, primTail fuel tag bnum avail buf disk i n s = some res →
      MirrorOK s → MirrorOK (wState res) := by
  intro n
  induction n with
  | zero =>
    intro disk i s res h hm
    unfold primTail at h
    cases h
    exact hm
  | succ m ih =>
    intro disk i s res h hm
    unfold primTail at h
    dsimp only at h
    cases havoid : avoidGo fuel
        (fun dd => decide ((s.globtag tag (bnum + avail + i)).backupDisk = (dd : Int)) ||
          decide ((s.globtag tag bnum).backupDisk = (dd : Int))) disk s with
    | none =>
      rw [havoid] at h
      exact absurd h (by simp)
    | some r1 =>
      obtain ⟨disk1, s1⟩ := r1
      rw [havoid] at h
      dsimp only at h
      obtain ⟨hbad, hg1⟩ := avoidGo_spec fuel _ disk s _ havoid
      have hbad1 : ¬((s.globtag tag (bnum + avail + i)).backupDisk = (disk1 : Int)) := by
        simp only [Bool.or_eq_false_iff, decide_eq_false_iff_not] at hbad
        exact hbad.1
      split at h
      · next hnew =>
        cases hbus : busStep
            { s1 with
                cache := put_raid_cache s1.cache (disk1 : Int) (s1.arrayBlocks disk1 + 1)
                  (buf (avail + i)) }
            (create_raid_request RAID_WRITE 1 disk1 (toU32 (s1.arrayBlocks disk1 + 1)))
            (fun _ => buf (avail + i)) with
        | fail s3 =>
          rw [hbus] at h
          dsimp only at h
          cases h
          have hb := busStep_globtag
            { s1 with
                cache := put_raid_cache s1.cache (disk1 : Int) (s1.arrayBlocks disk1 + 1)
                  (buf (avail + i)) }
            (create_raid_request RAID_WRITE 1 disk1 (toU32 (s1.arrayBlocks disk1 + 1)))
            (fun _ => buf (avail + i))
          rw [hbus] at hb
          exact MirrorOK_of_globtag (hb.trans hg1) hm
        | ok s3 =>
          rw [hbus] at h
          dsimp only at h
          have hb := busStep_globtag
            { s1 with
                cache := put_raid_cache s1.cache (disk1 : Int) (s1.arrayBlocks disk1 + 1)
                  (buf (avail + i)) }
            (create_raid_request RAID_WRITE 1 disk1 (toU32 (s1.arrayBlocks disk1 + 1)))
            (fun _ => buf (avail + i))
          rw [hbus] at hb
          have hg3 : s3.globtag = s.globtag := hb.trans hg1
          refine ih _ _ _ _ h ?_
          intro t b
          dsimp only
          by_cases htb : t = tag ∧ b = bnum + avail + i
          · rw [htb.1, htb.2, updT_same]
            intro hEq
            have hEq2 : (disk1 : Int) = (s3.globtag tag (bnum + avail + i)).backupDisk := hEq
            rw [hg3] at hEq2
            exact absurd hEq2.symm hbad1
          · rw [updT_ne _ _ _ _ htb, hg3]
            exact hm t b
      · next hold =>
        cases hbus : busStep
            { s1 with
                cache := put_raid_cache s1.cache (s1.globtag tag (bnum + avail + i)).disk
                  (s1.globtag tag (bnum + avail + i)).diskPosition (buf (avail + i)) }
            (create_raid_request RAID_WRITE 1 (toU8 (s1.globtag tag (bnum + avail + i)).disk)
              (toU32 (s1.globtag tag (bnum + avail + i)).diskPosition))
            (fun _ => buf (avail + i)) with
        | fail s3 =>
          rw [hbus] at h
          dsimp only at h
          cases h
          have hb := busStep_globtag
            { s1 with
                cache := put_raid_cache s1.cache (s1.globtag tag (bnum + avail + i)).disk
                  (s1.globtag tag (bnum + avail + i)).diskPosition (buf (avail + i)) }
            (create_raid_request RAID_WRITE 1 (toU8 (s1.globtag tag (bnum + avail + i)).disk)
              (toU32 (s1.globtag tag (bnum + avail + i)).diskPosition))
            (fun _ => buf (avail + i))
          rw [hbus] at hb
          exact MirrorOK_of_globtag (hb.trans hg1) hm
        | ok s3 =>
          rw [hbus] at h
          dsimp only at h
          have hb := busStep_globtag
            { s1 with
                cache := put_raid_cache s1.cache (s1.globtag tag (bnum + avail + i)).disk
                  (s1.globtag tag (bnum + avail + i)).diskPosition (buf (avail + i)) }
            (create_raid_request RAID_WRITE 1 (toU8 (s1.globtag tag (bnum + avail + i)).disk)
              (toU32 (s1.globtag tag (bnum + avail + i)).diskPosition))
            (fun _ => buf (avail + i))
          rw [hbus] at hb
          exact ih _ _ _ _ h (MirrorOK_of_globtag (hb.trans hg1) hm)

theorem backupTail_mirror (fuel tag bnum avail avail2 : Nat) (buf : Nat → Block) :
    ∀ n bdisk i s res, backupTail fuel tag bnum avail avail2 buf bdisk i n s = some res →
      MirrorOK s → MirrorOK (wState res) := by
  intro n
  induction n with
  | zero =>
    intro bdisk i s res h hm
    unfold backupTail at h
    cases h
    exact hm
  | succ m ih =>
    intro bdisk i s res h hm
    unfold backupTail at h
    dsimp only at h
    cases havoid : avoidGo fuel
        (fun dd => decide ((s.globtag tag (bnum + avail2 + i)).disk = (dd : Int)) ||
          decide ((s.globtag tag bnum).disk = (dd : Int))) bdisk s with
    | none =>
      rw [havoid] at h
      exact absurd h (by simp)
    | some r1 =>
      obtain ⟨bdisk1, s1⟩ := r1
      rw [havoid] at h
      dsimp only at h
      obtain ⟨hbad, hg1⟩ := avoidGo_spec fuel _ bdisk s _ havoid
      have hbad1 : ¬((s.globtag tag (bnum + avail2 + i)).disk = (bdisk1 : Int)) := by
        simp only [Bool.or_eq_false_iff, decide_eq_false_iff_not] at hbad
        exact hbad.1
      split at h
      · next hnew =>
        cases hbus : busStep
            { s1 with
                cache := put_raid_cache s1.cache (bdisk1 : Int) (s1.arrayBlocks bdisk1 + 1)
                  (buf (avail + i)) }
            (create_raid_request RAID_WRITE 1 bdisk1 (toU32 (s1.arrayBlocks bdisk1 + 1)))
            (fun _ => buf (avail2 + i)) with
        | fail s3 =>
          rw [hbus] at h
          dsimp only at h
          cases h
          have hb := busStep_globtag
            { s1 with
                cache := put_raid_cache s1.cache (bdisk1 : Int) (s1.arrayBlocks bdisk1 + 1)
                  (buf (avail + i)) }
            (create_raid_request RAID_WRITE 1 bdisk1 (toU32 (s1.arrayBlocks bdisk1 + 1)))
            (fun _ => buf (avail2 + i))
          rw [hbus] at hb
          exact MirrorOK_of_globtag (hb.trans hg1) hm
        | ok s3 =>
          rw [hbus] at h
          dsimp only at h
          have hb := busStep_globtag
            { s1 with
                cache := put_raid_cache s1.cache (bdisk1 : Int) (s1.arrayBlocks bdisk1 + 1)
                  (buf (avail + i)) }
            (create_raid_request RAID_WRITE 1 bdisk1 (toU32 (s1.arrayBlocks bdisk1 + 1)))
            (fun _ => buf (avail2 + i))
          rw [hbus] at hb
          have hg3 : s3.globtag = s.globtag := hb.trans hg1
          refine ih _ _ _ _ h ?_
          intro t b
          dsimp only
          by_cases htb : t = tag ∧ b = bnum + avail2 + i
          · rw [htb.1, htb.2, updT_same]
            intro hEq
            have hEq2 : (s3.globtag tag (bnum + avail2 + i)).disk = (bdisk1 : Int) := hEq
            rw [hg3] at hEq2
            exact absurd hEq2 hbad1
          · rw [updT_ne _ _ _ _ htb, hg3]
            exact hm t b
      · next hold =>
        cases hbus : busStep
            { s1 with
                cache := put_raid_cache s1.cache (s1.globtag tag (bnum + avail2 + i)).backupDisk
                  (s1.globtag tag (bnum + avail2 + i)).backupDiskPosition (buf (avail + i)) }
            (create_raid_request RAID_WRITE 1
              (toU8 (s1.globtag tag (bnum + avail2 + i)).backupDisk)
              (toU32 (s1.globtag tag (bnum + avail2 + i)).backupDiskPosition))
            (fun _ => buf (avail2 + i)) with
        | fail s3 =>
          rw [hbus] at h
          dsimp only at h
          cases h
          have hb := busStep_globtag
            { s1 with
                cache := put_raid_cache s1.cache (s1.globtag tag (bnum + avail2 + i)).backupDisk
                  (s1.globtag tag (bnum + avail2 + i)).backupDiskPosition (buf (avail + i)) }
            (create_raid_request RAID_WRITE 1
              (toU8 (s1.globtag tag (bnum + avail2 + i)).backupDisk)
              (toU32 (s1.globtag tag (bnum + avail2 + i)).backupDiskPosition))
            (fun _ => buf (avail2 + i))
          rw [hbus] at hb
          exact MirrorOK_of_globtag (hb.trans hg1) hm
        | ok s3 =>
          rw [hbus] at h
          dsimp only at h
          have hb := busStep_globtag
            { s1 with
                cache := put_raid_cache s1.cache (s1.globtag tag (bnum + avail2 + i)).backupDisk
                  (s1.globtag tag (bnum + avail2 + i)).backupDiskPosition (buf (avail + i)) }
            (create_raid_request RAID_WRITE 1
              (toU8 (s1.globtag tag (bnum + avail2 + i)).backupDisk)
              (toU32 (s1.globtag tag (bnum + avail2 + i)).backupDiskPosition))
            (fun _ => buf (avail2 + i))
          rw [hbus] at hb
          exact ih _ _ _ _ h (MirrorOK_of_globtag (hb.trans hg1) hm)

theorem saveGo_mirror (tag disk backupDisk : Nat) (hdb : disk ≠ backupDisk) :
    ∀ n lb s, MirrorOK s → MirrorOK (saveGo tag disk backupDisk lb n s) := by
  intro n
  induction n with
  | zero =>
    intro lb s hm
    exact hm
  | succ m ih =>
    intro lb s hm
    unfold saveGo
    dsimp only
    refine ih (lb + 1) _ ?_
    intro t b
    dsimp only
    by_cases htb : t = tag ∧ b = lb
    · rw [htb.1, htb.2, updT_same]
      intro hEq
      have hEq2 : (disk : Int) = (backupDisk : Int) := hEq
      exact absurd (Int.natCast_inj.1 hEq2) hdb
    · rw [updT_ne _ _ _ _ htb]
      exact hm t b

theorem appendWrite_mirror (tag bnum blks : Nat) (buf : Nat → Block) (disk backupDisk : Nat)
    (s : SysState) (hdb : disk ≠ backupDisk) (hm : MirrorOK s) :
    MirrorOK (wState (appendWrite tag bnum blks buf disk backupDisk s)) := by
  unfold appendWrite
  dsimp only
  cases hbus : busStep
      { s with
          cache := putRun (fun i => ((disk : Int), s.arrayBlocks disk + 1 + (i : Int)))
            buf s.cache 0 blks }
      (create_raid_request RAID_WRITE blks disk (toU32 (s.arrayBlocks disk + 1))) buf with
  | fail s2 =>
    have hb := busStep_globtag
      { s with
          cache := putRun (fun i => ((disk : Int), s.arrayBlocks disk + 1 + (i : Int)))
            buf s.cache 0 blks }
      (create_raid_request RAID_WRITE blks disk (toU32 (s.arrayBlocks disk + 1))) buf
    rw [hbus] at hb
    exact MirrorOK_of_globtag hb hm
  | ok s2 =>
    have hb := busStep_globtag
      { s with
          cache := putRun (fun i => ((disk : Int), s.arrayBlocks disk + 1 + (i : Int)))
            buf s.cache 0 blks }
      (create_raid_request RAID_WRITE blks disk (toU32 (s.arrayBlocks disk + 1))) buf
    rw [hbus] at hb
    have hm2 : MirrorOK s2 := MirrorOK_of_globtag hb hm
    dsimp only
    cases hbus2 : busStep
        { s2 with
            cache := putRun
              (fun i => ((backupDisk : Int), s2.arrayBlocks backupDisk + 1 + (i : Int)))
              buf s2.cache 0 blks }
        (create_raid_request RAID_WRITE blks backupDisk (toU32 (s2.arrayBlocks backupDisk + 1)))
        buf with
    | fail s4 =>
      have hb2 := busStep_globtag
        { s2 with
            cache := putRun
              (fun i => ((backupDisk : Int), s2.arrayBlocks backupDisk + 1 + (i : Int)))
              buf s2.cache 0 blks }
        (create_raid_request RAID_WRITE blks backupDisk (toU32 (s2.arrayBlocks backupDisk + 1)))
        buf
      rw [hbus2] at hb2
      exact MirrorOK_of_globtag hb2 hm2
    | ok s4 =>
      have hb2 := busStep_globtag
        { s2 with
            cache := putRun
              (fun i => ((backupDisk : Int), s2.arrayBlocks backupDisk + 1 + (i : Int)))
              buf s2.cache 0 blks }
        (create_raid_request RAID_WRITE blks backupDisk (toU32 (s2.arrayBlocks backupDisk + 1)))
        buf
      rw [hbus2] at hb2
      have hm4 : MirrorOK s4 := MirrorOK_of_globtag hb2 hm2
      exact saveGo_mirror tag disk backupDisk hdb blks bnum _ hm4

theorem wState_ite_globtag (c : Prop) [Decidable c] (x : WStep) (s1 : SysState)
    (hx : (wState x).globtag = s1.globtag) :
    (wState (if c then x else WStep.ok s1)).globtag = s1.globtag := by
  split
  · exact hx
  · rfl

theorem tagline_write_mirror (fuel tag bnum blks : Nat) (buf : Nat → Block) (s : SysState)
    (r : Nat) (sEnd : SysState) (h : tagline_write fuel tag bnum blks buf s = some (r, sEnd))
    (hm : MirrorOK s) : MirrorOK sEnd := by
  unfold tagline_write at h
  dsimp only at h
  cases hcb : chooseBothGo fuel ((randDraw s).1) ((randDraw (randDraw s).2).1)
      ((randDraw (randDraw s).2).2) with
  | none =>
    rw [hcb] at h
    exact absurd h (by simp)
  | some rr =>
    obtain ⟨disk, backupDisk, s1⟩ := rr
    rw [hcb] at h
    dsimp only at h
    obtain ⟨hne, hg1, -⟩ := chooseBothGo_spec fuel _ _ _ _ hcb
    have hm1 : MirrorOK s1 := MirrorOK_of_globtag hg1 hm
    generalize hav : (if bnum < s.tagcounter tag ∧ blks ≠ 1 then
      blocksAvail s1.globtag tag bnum blks else (1, 1)) = av at h
    split at h
    · next hrw =>
      cases hr1 : (if blks ≤ av.1 then rewriteBatchPrim tag bnum blks buf s1
          else WStep.ok s1) with
      | fail sA =>
        rw [hr1] at h
        dsimp only at h
        cases h
        have hg := wState_ite_globtag (blks ≤ av.1) _ s1
          (rewriteBatchPrim_globtag tag bnum blks buf s1)
        rw [hr1] at hg
        exact MirrorOK_of_globtag hg hm1
      | ok sA =>
        rw [hr1] at h
        dsimp only at h
        have hgA : sA.globtag = s1.globtag := by
          have hg := wState_ite_globtag (blks ≤ av.1) _ s1
            (rewriteBatchPrim_globtag tag bnum blks buf s1)
          rw [hr1] at hg
          exact hg
        have hmA : MirrorOK sA := MirrorOK_of_globtag hgA hm1
        cases hr2 : (if blks ≤ av.2 then rewriteBatchBack tag bnum blks buf sA
            else WStep.ok sA) with
        | fail sB =>
          rw [hr2] at h
          dsimp only at h
          cases h
          have hg := wState_ite_globtag (blks ≤ av.2) _ sA
            (rewriteBatchBack_globtag tag bnum blks buf sA)
          rw [hr2] at hg
          exact MirrorOK_of_globtag hg hmA
        | ok sB =>
          rw [hr2] at h
          dsimp only at h
          have hgB : sB.globtag = sA.globtag := by
            have hg := wState_ite_globtag (blks ≤ av.2) _ sA
              (rewriteBatchBack_globtag tag bnum blks buf sA)
            rw [hr2] at hg
            exact hg
          have hmB : MirrorOK sB := MirrorOK_of_globtag hgB hmA
          have hstep3 : ∀ res, (if av.1 < blks then
              match rewritePartialPrim tag bnum av.1 buf sB with
              | WStep.fail s4 => some (WStep.fail s4)
              | WStep.ok s4 => primTail fuel tag bnum av.1 buf disk 0 (blks - av.1) s4
            else some (WStep.ok sB)) = some res → MirrorOK (wState res) := by
            intro res hres
            by_cases hav1 : av.1 < blks
            · rw [if_pos hav1] at hres
              cases hpp : rewritePartialPrim tag bnum av.1 buf sB with
              | fail s4 =>
                rw [hpp] at hres
                dsimp only at hres
                cases hres
                have hg := rewritePartialPrim_globtag tag bnum av.1 buf sB
                rw [hpp] at hg
                exact MirrorOK_of_globtag hg hmB
              | ok s4 =>
                rw [hpp] at hres
                dsimp only at hres
                have hg := rewritePartialPrim_globtag tag bnum av.1 buf sB
                rw [hpp] at hg
                exact primTail_mirror fuel tag bnum av.1 buf _ _ _ _ _ hres
                  (MirrorOK_of_globtag hg hmB)
            · rw [if_neg hav1] at hres
              cases hres
              exact hmB
          cases hr3 : (if av.1 < blks then
              match rewritePartialPrim tag bnum av.1 buf sB with
              | WStep.fail s4 => some (WStep.fail s4)
              | WStep.ok s4 => primTail fuel tag bnum av.1 buf disk 0 (blks - av.1) s4
            else some (WStep.ok sB)) with
          | none =>
            rw [hr3] at h
            exact absurd h (by simp)
          | some res3 =>
            rw [hr3] at h
            have hmC : MirrorOK (wState res3) := hstep3 res3 hr3
            cases res3 with
            | fail sC =>
              dsimp only at h
              cases h
              exact hmC
            | ok sC =>
              dsimp only at h
              have hstep4 : ∀ res, (if av.2 < blks then
                  match rewritePartialBack tag bnum av.1 av.2 buf sC with
                  | WStep.fail s5 => some (WStep.fail s5)
                  | WStep.ok s5 =>
                    backupTail fuel tag bnum av.1 av.2 buf backupDisk 0 (blks - av.2) s5
                else some (WStep.ok sC)) = some res → MirrorOK (wState res) := by
                intro res hres
                by_cases hav2 : av.2 < blks
                · rw [if_pos hav2] at hres
                  cases hpp : rewritePartialBack tag bnum av.1 av.2 buf sC with
                  | fail s5 =>
                    rw [hpp] at hres
                    dsimp only at hres
                    cases hres
                    have hg := rewritePartialBack_globtag tag bnum av.1 av.2 buf sC
                    rw [hpp] at hg
                    exact MirrorOK_of_globtag hg hmC
                  | ok s5 =>
                    rw [hpp] at hres
                    dsimp only at hres
                    have hg := rewritePartialBack_globtag tag bnum av.1 av.2 buf sC
                    rw [hpp] at hg
                    exact backupTail_mirror fuel tag bnum av.1 av.2 buf _ _ _ _ _ hres
                      (MirrorOK_of_globtag hg hmC)
                · rw [if_neg hav2] at hres
                  cases hres
                  exact hmC
              cases hr4 : (if av.2 < blks then
                  match rewritePartialBack tag bnum av.1 av.2 buf sC with
                  | WStep.fail s5 => some (WStep.fail s5)
                  | WStep.ok s5 =>
                    backupTail fuel tag bnum av.1 av.2 buf backupDisk 0 (blks - av.2) s5
                else some (WStep.ok sC)) with
              | none =>
                rw [hr4] at h
                exact absurd h (by simp)
              | some res4 =>
                rw [hr4] at h
                have hmD : MirrorOK (wState res4) := hstep4 res4 hr4
                cases res4 with
                | fail sD =>
                  dsimp only at h
                  cases h
                  exact hmD
                | ok sD =>
                  dsimp only at h
                  cases h
                  exact hmD
    · next hnorw =>
      cases haw : appendWrite tag bnum blks buf disk backupDisk s1 with
      | fail s2 =>
        rw [haw] at h
        dsimp only at h
        cases h
        have hg := appendWrite_mirror tag bnum blks buf disk backupDisk s1 hne hm1
        rw [haw] at hg
        exact hg
      | ok s2 =>
        rw [haw] at h
        dsimp only at h
        cases h
        have hg := appendWrite_mirror tag bnum blks buf disk backupDisk s1 hne hm1
        rw [haw] at hg
        exact hg

theorem initFormatGo_globtag : ∀ n d s, (initFormatGo d n s).2.globtag = s.globtag := by
  intro n
  induction n with
  | zero =>
    intro d s
    rfl
  | succ m ih =>
    intro d s
    unfold initFormatGo
    dsimp only
    split
    · next huninit =>
      split
      · next hok =>
        exact (ih (d + 1) _).trans rfl
      · next hbad =>
        rfl
    · next helse =>
      exact ih (d + 1) s

/-- C2: the mirror-integrity invariant — a mapping's primary and backup
disks coincide only while both are still unassigned (-1) — holds after
initialization and is preserved by every driver operation: write (append
or rewrite, through every branch), read, signal-and-recover, and recovery
itself. -/
theorem C2_mirror_invariant :
    (∀ maxlines rs fa pf, MirrorOK (tagline_driver_init maxlines rs fa pf).2) ∧
    (∀ fuel tag bnum blks buf s r sEnd, MirrorOK s →
      tagline_write fuel tag bnum blks buf s = some (r, sEnd) → MirrorOK sEnd) ∧
    (∀ tag bnum blks s, MirrorOK s → MirrorOK (tagline_read tag bnum blks s).2.1) ∧
    (∀ s, MirrorOK s → MirrorOK (raid_disk_signal s).2) ∧
    (∀ disk s, MirrorOK s → MirrorOK (raid_disk_recover disk s).2) := by
  refine ⟨?_, ?_, ?_, ?_, ?_⟩
  · intro maxlines rs fa pf
    unfold tagline_driver_init
    dsimp only
    split
    · next hok =>
      refine MirrorOK_of_globtag ((initFormatGo_globtag RAID_DISKS 0 _).trans rfl) ?_
      intro t b _
      rfl
    · next hbad =>
      intro t b _
      rfl
  · intro fuel tag bnum blks buf s r sEnd hm h
    exact tagline_write_mirror fuel tag bnum blks buf s r sEnd h hm
  · intro tag bnum blks s hm
    exact MirrorOK_of_globtag ((tagline_read_state tag bnum blks s).symm ▸
      readGo_globtag tag bnum blks 0 0 0 s (fun _ => defaultBlock)) hm
  · intro s hm
    exact MirrorOK_of_globtag (signalGo_globtag RAID_DISKS 0 s) hm
  · intro disk s hm
    exact MirrorOK_of_globtag (raid_disk_recover_globtag disk s) hm

/-- Witness for C2: the invariant holds of baseState, survives a concrete
successful three-block append, a read, and a signal sweep. -/
theorem C2_witness :
    MirrorOK baseState ∧
    tagline_write 8 0 0 3 c1buf baseState = some (0, c1out) ∧
    MirrorOK c1out ∧
    MirrorOK ((tagline_read 0 0 1 baseState).2.1) ∧
    MirrorOK (raid_disk_signal baseState).2 := by
  have hb : MirrorOK baseState := fun t b _ => rfl
  refine ⟨hb, rfl, ?_, ?_, ?_⟩
  · exact C2_mirror_invariant.2.1 8 0 0 3 c1buf baseState 0 c1out hb rfl
  · exact C2_mirror_invariant.2.2.1 0 0 1 baseState hb
  · exact C2_mirror_invariant.2.2.2.1 baseState hb

theorem extract_zero_zero : extract_raid_response 0 0 = 0 := by decide

theorem client_write_nofault (s : SysState) (q dd id : Nat) (payload : Nat → Block)
    (hf : s.faultAt s.opIdx = false) :
    client_raid_bus_request s (create_raid_request RAID_WRITE q dd id) payload =
      ({ s with
          disksC := updF s.disksC (dd % 256)
            (writeBlksAt (s.disksC (dd % 256)) (id % 2 ^ 32) (q % 256) payload),
          opIdx := s.opIdx + 1,
          trace := s.trace ++ [create_raid_request RAID_WRITE q dd id] },
        create_raid_request RAID_WRITE q dd id,
        fun _ => defaultBlock) := by
  unfold client_raid_bus_request
  rw [create_decode_t, create_decode_q, create_decode_d, create_decode_id, hf]
  norm_num [RAID_STATUS, RAID_WRITE, RAID_FORMAT, RAID_READ]

theorem client_read_nofault (s : SysState) (dd id : Nat) (payload : Nat → Block)
    (hf : s.faultAt s.opIdx = false) :
    client_raid_bus_request s (create_raid_request RAID_READ 1 dd id) payload =
      ({ s with
          opIdx := s.opIdx + 1,
          trace := s.trace ++ [create_raid_request RAID_READ 1 dd id] },
        create_raid_request RAID_READ 1 dd id,
        fun j => s.disksC (dd % 256) (id % 2 ^ 32 + j)) := by
  unfold client_raid_bus_request
  rw [create_decode_t, create_decode_q, create_decode_d, create_decode_id, hf]
  norm_num [RAID_STATUS, RAID_WRITE, RAID_FORMAT, RAID_READ]

theorem busStep_write_nofault (s : SysState) (q dd id : Nat) (payload : Nat → Block)
    (hf : s.faultAt s.opIdx = false) :
    busStep s (create_raid_request RAID_WRITE q dd id) payload =
      WStep.ok { s with
        disksC := updF s.disksC (dd % 256)
          (writeBlksAt (s.disksC (dd % 256)) (id % 2 ^ 32) (q % 256) payload),
        opIdx := s.opIdx + 1,
        trace := s.trace ++ [create_raid_request RAID_WRITE q dd id] } := by
  unfold busStep
  rw [client_write_nofault s q dd id payload hf]
  dsimp only
  rw [if_pos (extract_echo RAID_WRITE q dd id)]

theorem goodAt_get (c : CacheState) (k : Int × Int) (v : Block) (dsk blk : Int)
    (hg : goodAt c k v) : goodAt (get_raid_cache c dsk blk).2 k v := by
  unfold goodAt at hg ⊢
  rw [lookupC_get]
  exact hg

theorem goodAt_put_other (c : CacheState) (k : Int × Int) (v : Block) (dsk blk : Int)
    (w : Block) (hI : CInv c) (hk : 0 ≤ k.1) (hne : ¬(k.1 = dsk ∧ k.2 = blk))
    (hg : goodAt c k v) : goodAt (put_raid_cache c dsk blk w) k v := by
  rcases lookupC_put_other c dsk blk k.1 k.2 w hI hk hne with h | h
  · rcases hg with hg | hg
    · exact Or.inl (h.trans hg)
    · exact Or.inr (h.trans hg)
  · exact Or.inr h

theorem CInv_putRun (keys : Nat → Int × Int) (vals : Nat → Block) :
    ∀ n i c, CInv c → (∀ j, i ≤ j → j < i + n → 0 ≤ (keys j).1) →
      CInv (putRun keys vals c i n) := by
  intro n
  induction n with
  | zero => intro i c hI _; exact hI
  | succ m ih =>
    intro i c hI hks
    unfold putRun
    exact ih (i + 1) _
      (CInv_put _ _ _ _ hI (hks i (le_refl i) (by omega)))
      (fun j h1 h2 => hks j (by omega) (by omega))

theorem goodAt_putRun_other (keys : Nat → Int × Int) (vals : Nat → Block)
    (k : Int × Int) (v : Block) (hk : 0 ≤ k.1) :
    ∀ n i c, CInv c →
      (∀ j, i ≤ j → j < i + n →
        0 ≤ (keys j).1 ∧ ¬(k.1 = (keys j).1 ∧ k.2 = (keys j).2)) →
      goodAt c k v → goodAt (putRun keys vals c i n) k v := by
  intro n
  induction n with
  | zero => intro i c _ _ hg; exact hg
  | succ m ih =>
    intro i c hI hks hg
    unfold putRun
    exact ih (i + 1) _
      (CInv_put _ _ _ _ hI (hks i (le_refl i) (by omega)).1)
      (fun j h1 h2 => hks j (by omega) (by omega))
      (goodAt_put_other c k v _ _ _ hI hk (hks i (le_refl i) (by omega)).2 hg)

theorem goodAt_putRun_self (keys : Nat → Int × Int) (vals : Nat → Block) :
    ∀ n i c, CInv c →
      (∀ j, i ≤ j → j < i + n → 0 ≤ (keys j).1) →
      (∀ j1 j2, i ≤ j1 → j1 < i + n → i ≤ j2 → j2 < i + n → j1 ≠ j2 → keys j1 ≠ keys j2) →
      ∀ j, i ≤ j → j < i + n → goodAt (putRun keys vals c i n) (keys j) (vals j) := by
  intro n
  induction n with
  | zero => intro i c _ _ _ j h1 h2; omega
  | succ m ih =>
    intro i c hI hks hinj j h1 h2
    unfold putRun
    rcases Nat.eq_or_lt_of_le h1 with he | hlt
    · subst he
      refine goodAt_putRun_other keys vals (keys i) (vals i)
        (hks i (le_refl i) (by omega)) m (i + 1) _
        (CInv_put _ _ _ _ hI (hks i (le_refl i) (by omega)))
        (fun j2 ha hb =>
          ⟨hks j2 (by omega) (by omega),
            fun hc => hinj i j2 (le_refl i) (by omega) (by omega) (by omega)
              (by omega) (Prod.ext_iff.mpr ⟨hc.1, hc.2⟩)⟩)
        (Or.inl (lookupC_put_self _ _ _ _ hI))
    · exact ih (i + 1) _
        (CInv_put _ _ _ _ hI (hks i (le_refl i) (by omega)))
        (fun j2 ha hb => hks j2 (by omega) (by omega))
        (fun j1 j2 ha hb hc hd hne => hinj j1 j2 (by omega) (by omega) (by omega) (by omega) hne)
        j hlt (by omega)

theorem saveGo_spec (tag d b : Nat) (hdb : d ≠ b) :
    ∀ n lb s,
      (∀ i, i < n → (saveGo tag d b lb n s).globtag tag (lb + i) =
        { disk := (d : Int), diskPosition := s.arrayBlocks d + 1 + (i : Int),
          backupDisk := (b : Int),
          backupDiskPosition := s.arrayBlocks b + 1 + (i : Int) }) ∧
      (∀ t2 b2, (t2 ≠ tag ∨ b2 < lb) →
        (saveGo tag d b lb n s).globtag t2 b2 = s.globtag t2 b2) ∧
      (saveGo tag d b lb n s).cache = s.cache ∧
      (saveGo tag d b lb n s).disksC = s.disksC ∧
      (saveGo tag d b lb n s).faultAt = s.faultAt ∧
      (saveGo tag d b lb n s).tagcounter = s.tagcounter := by
  intro n
  induction n with
  | zero =>
    intro lb s
    exact ⟨fun i hi => absurd hi (Nat.not_lt_zero i),
      fun t2 b2 _ => rfl, rfl, rfl, rfl, rfl⟩
  | succ m ih =>
    intro lb s
    unfold saveGo
    dsimp only
    have hab1d : updF s.arrayBlocks d (s.arrayBlocks d + 1) d = s.arrayBlocks d + 1 :=
      updF_same _ _ _
    have hab1b : updF s.arrayBlocks d (s.arrayBlocks d + 1) b = s.arrayBlocks b :=
      updF_ne _ _ (fun h => hdb h.symm)
    have hab2d : updF (updF s.arrayBlocks d (s.arrayBlocks d + 1)) b
        (updF s.arrayBlocks d (s.arrayBlocks d + 1) b + 1) d =
        s.arrayBlocks d + 1 := by
      rw [updF_ne _ _ hdb, hab1d]
    have hab2b : updF (updF s.arrayBlocks d (s.arrayBlocks d + 1)) b
        (updF s.arrayBlocks d (s.arrayBlocks d + 1) b + 1) b =
        s.arrayBlocks b + 1 := by
      rw [updF_same, hab1b]
    obtain ⟨ih1, ih2, ih3, ih4, ih5, ih6⟩ := ih (lb + 1)
      { s with
          globtag := updT s.globtag tag lb
            { s.globtag tag lb with
                disk := (d : Int), backupDisk := (b : Int),
                diskPosition := updF (updF s.arrayBlocks d (s.arrayBlocks d + 1)) b
                  (updF s.arrayBlocks d (s.arrayBlocks d + 1) b + 1) d,
                backupDiskPosition := updF (updF s.arrayBlocks d (s.arrayBlocks d + 1)) b
                  (updF s.arrayBlocks d (s.arrayBlocks d + 1) b + 1) b },
          arrayBlocks := updF (updF s.arrayBlocks d (s.arrayBlocks d + 1)) b
            (updF s.arrayBlocks d (s.arrayBlocks d + 1) b + 1) }
    refine ⟨?_, ?_, ih3, ih4, ih5, ih6⟩
    · intro i hi
      cases i with
      | zero =>
        rw [show lb + 0 = lb by omega]
        rw [ih2 tag lb (Or.inr (Nat.lt_succ_self lb))]
        dsimp only
        rw [updT_same]
        rw [hab2d, hab2b]
        simp only [TagBlock.mk.injEq]
        refine ⟨trivial, by push_cast; ring, trivial, by push_cast; ring⟩
      | succ j =>
        rw [show lb + (j + 1) = (lb + 1) + j by omega]
        rw [ih1 j (by omega)]
        dsimp only
        rw [hab2d, hab2b]
        simp only [TagBlock.mk.injEq]
        refine ⟨trivial, by push_cast; ring, trivial, by push_cast; ring⟩
    · intro t2 b2 hout
      have hb2 : (t2 ≠ tag ∨ b2 < lb + 1) := by
        rcases hout with h | h
        · exact Or.inl h
        · exact Or.inr (by omega)
      rw [ih2 t2 b2 hb2]
      dsimp only
      refine updT_ne _ _ _ _ ?_
      rcases hout with h | h
      · exact fun hc => h hc.1
      · exact fun hc => by omega

theorem toU8_natCast (k : Nat) (h : k < 256) : toU8 (k : Int) = k := by
  unfold toU8
  omega

theorem toU32_natCast (k : Nat) (h : k < 2 ^ 32) : toU32 (k : Int) = k := by
  unfold toU32
  omega

theorem readGo_roundtrip (tag bnum : Nat) (buf : Nat → Block) (blks : Nat)
    (keyd : Nat) (keyp : Nat → Nat) (hkd : keyd < 256)
    (hinj : ∀ j1 j2, j1 < blks → j2 < blks → j1 ≠ j2 → keyp j1 ≠ keyp j2)
    (hkp : ∀ j, j < blks → keyp j < 2 ^ 32) :
    ∀ n i op resp s out, i + n = blks →
      CInv s.cache →
      (∀ k, s.faultAt k = false) →
      (∀ j, i ≤ j → j < blks →
        (s.globtag tag (bnum + j)).disk = (keyd : Int) ∧
        (s.globtag tag (bnum + j)).diskPosition = (keyp j : Int)) →
      (∀ j, i ≤ j → j < blks →
        goodAt s.cache ((keyd : Int), (keyp j : Int)) (buf j)) →
      (∀ j, i ≤ j → j < blks → s.disksC keyd (keyp j) = buf j) →
      extract_raid_response resp op = 0 →
      extract_raid_response (readGo tag bnum i n op resp s out).2.1
          (readGo tag bnum i n op resp s out).1 = 0 ∧
        (∀ j, i ≤ j → j < blks → (readGo tag bnum i n op resp s out).2.2.2 j = buf j) ∧
        (∀ j, j < i → (readGo tag bnum i n op resp s out).2.2.2 j = out j) := by
  intro n
  induction n with
  | zero =>
    intro i op resp s out hin hCI hnf hmap hgood hdisk hprev
    exact ⟨hprev, fun j h1 h2 => by omega, fun j h => rfl⟩
  | succ m ih =>
    intro i op resp s out hin hCI hnf hmap hgood hdisk hprev
    have hilt : i < blks := by omega
    obtain ⟨htbd, htbp⟩ := hmap i (le_refl i) hilt
    unfold readGo
    dsimp only
    rw [htbd, htbp, get_fst_eq_lookup]
    rcases hgood i (le_refl i) hilt with hL | hL
    · dsimp only at hL
      rw [hL]
      dsimp only
      obtain ⟨ihA, ihB, ihC⟩ := ih (i + 1) op resp
        { s with cache := (get_raid_cache s.cache (keyd : Int) (keyp i : Int)).2 }
        (updF out i (buf i)) (by omega)
        (CInv_get _ _ _ hCI (Int.natCast_nonneg keyd))
        hnf
        (fun j h1 h2 => hmap j (by omega) h2)
        (fun j h1 h2 => goodAt_get _ _ _ _ _ (hgood j (by omega) h2))
        (fun j h1 h2 => hdisk j (by omega) h2)
        hprev
      refine ⟨ihA, ?_, ?_⟩
      · intro j h1 h2
        rcases Nat.eq_or_lt_of_le h1 with he | hlt
        · subst he
          rw [ihC i (by omega), updF_same]
        · exact ihB j hlt h2
      · intro j h
        rw [ihC j (by omega), updF_ne _ _ (by omega)]
    · dsimp only at hL
      rw [hL]
      dsimp only
      rw [toU8_natCast keyd hkd, toU32_natCast (keyp i) (hkp i hilt)]
      rw [client_read_nofault
        { s with cache := (get_raid_cache s.cache (keyd : Int) (keyp i : Int)).2 }
        keyd (keyp i) (fun _ => defaultBlock) (hnf _)]
      dsimp only
      rw [Nat.mod_eq_of_lt hkd, Nat.mod_eq_of_lt (hkp i hilt)]
      rw [show keyp i + 0 = keyp i from Nat.add_zero _]
      rw [hdisk i (le_refl i) hilt]
      obtain ⟨ihA, ihB, ihC⟩ := ih (i + 1)
        (create_raid_request RAID_READ 1 keyd (keyp i))
        (create_raid_request RAID_READ 1 keyd (keyp i))
        { s with
            cache := put_raid_cache
              (get_raid_cache s.cache (keyd : Int) (keyp i : Int)).2
              (keyd : Int) (keyp i : Int) (buf i),
            opIdx := s.opIdx + 1,
            trace := s.trace ++ [create_raid_request RAID_READ 1 keyd (keyp i)] }
        (updF out i (buf i)) (by omega)
        (CInv_put _ _ _ _ (CInv_get _ _ _ hCI (Int.natCast_nonneg keyd))
          (Int.natCast_nonneg keyd))
        hnf
        (fun j h1 h2 => hmap j (by omega) h2)
        (fun j h1 h2 =>
          goodAt_put_other _ _ _ _ _ _
            (CInv_get _ _ _ hCI (Int.natCast_nonneg keyd))
            (Int.natCast_nonneg keyd)
            (fun hc => hinj j i h2 hilt (by omega) (Nat.cast_injective hc.2))
            (goodAt_get _ _ _ _ _ (hgood j (by omega) h2)))
        (fun j h1 h2 => hdisk j (by omega) h2)
        (extract_echo RAID_READ 1 keyd (keyp i))
      refine ⟨ihA, ?_, ?_⟩
      · intro j h1 h2
        rcases Nat.eq_or_lt_of_le h1 with he | hlt
        · subst he
          rw [ihC i (by omega), updF_same]
        · exact ihB j hlt h2
      · intro j h
        rw [ihC j (by omega), updF_ne _ _ (by omega)]

theorem appendWrite_nofault (tag bnum blks : Nat) (buf : Nat → Block) (disk bdisk : Nat)
    (s1 : SysState) (hnf1 : ∀ k, s1.faultAt k = false) :
    appendWrite tag bnum blks buf disk bdisk s1 =
      WStep.ok (appendOk tag bnum blks buf disk bdisk s1) := by
  unfold appendWrite appendOk
  dsimp only
  rw [busStep_write_nofault]
  dsimp only
  rw [busStep_write_nofault]
  all_goals exact hnf1 _

theorem appendOk_fields (tag bnum blks : Nat) (buf : Nat → Block) (disk bdisk : Nat)
    (s1 : SysState) (hne : disk ≠ bdisk) :
    (∀ i, i < blks → (appendOk tag bnum blks buf disk bdisk s1).globtag tag (bnum + i) =
      { disk := (disk : Int), diskPosition := s1.arrayBlocks disk + 1 + (i : Int),
        backupDisk := (bdisk : Int),
        backupDiskPosition := s1.arrayBlocks bdisk + 1 + (i : Int) }) ∧
    (appendOk tag bnum blks buf disk bdisk s1).cache =
      putRun (fun i => ((bdisk : Int), s1.arrayBlocks bdisk + 1 + (i : Int))) buf
        (putRun (fun i => ((disk : Int), s1.arrayBlocks disk + 1 + (i : Int))) buf
          s1.cache 0 blks) 0 blks ∧
    (appendOk tag bnum blks buf disk bdisk s1).disksC =
      updF (updF s1.disksC (disk % 256)
          (writeBlksAt (s1.disksC (disk % 256)) (toU32 (s1.arrayBlocks disk + 1) % 2 ^ 32)
            (blks % 256) buf))
        (bdisk % 256)
        (writeBlksAt
          ((updF s1.disksC (disk % 256)
            (writeBlksAt (s1.disksC (disk % 256)) (toU32 (s1.arrayBlocks disk + 1) % 2 ^ 32)
              (blks % 256) buf)) (bdisk % 256))
          (toU32 (s1.arrayBlocks bdisk + 1) % 2 ^ 32) (blks % 256) buf) ∧
    (appendOk tag bnum blks buf disk bdisk s1).faultAt = s1.faultAt := by
  unfold appendOk
  dsimp only
  refine ⟨?_, ?_, ?_, ?_⟩
  · intro i hi
    rw [(saveGo_spec tag disk bdisk hne blks bnum _).1 i hi]
  · rw [(saveGo_spec tag disk bdisk hne blks bnum _).2.2.1]
  · rw [(saveGo_spec tag disk bdisk hne blks bnum _).2.2.2.1]
  · rw [(saveGo_spec tag disk bdisk hne blks bnum _).2.2.2.2.1]

theorem read_after_append (tag bnum blks : Nat) (buf : Nat → Block) (sW : SysState)
    (disk P0 : Nat) (hkd : disk < 256) (hP : P0 + blks ≤ 2 ^ 32)
    (hCI : CInv sW.cache)
    (hnfW : ∀ k, sW.faultAt k = false)
    (hmap : ∀ j, j < blks → (sW.globtag tag (bnum + j)).disk = (disk : Int) ∧
      (sW.globtag tag (bnum + j)).diskPosition = ((P0 + j : Nat) : Int))
    (hgood : ∀ j, j < blks →
      goodAt sW.cache ((disk : Int), ((P0 + j : Nat) : Int)) (buf j))
    (hdisk : ∀ j, j < blks → sW.disksC disk (P0 + j) = buf j) :
    (tagline_read tag bnum blks sW).1 = 0 ∧
      ∀ i, i < blks → (tagline_read tag bnum blks sW).2.2 i = buf i := by
  obtain ⟨hA, hB, -⟩ := readGo_roundtrip tag bnum buf blks disk (fun j => P0 + j) hkd
    (fun j1 j2 h1 h2 hne12 => by dsimp only; omega)
    (fun j hj => by dsimp only; omega)
    blks 0 0 0 sW (fun _ => defaultBlock) (by omega) hCI hnfW
    (fun j h1 h2 => hmap j h2) (fun j h1 h2 => hgood j h2) (fun j h1 h2 => hdisk j h2)
    extract_zero_zero
  unfold tagline_read
  dsimp only
  rw [if_pos hA]
  exact ⟨rfl, fun i hi => hB i (Nat.zero_le i) hi⟩

/-- C1: writing blks fresh blocks to a tagline and reading them back returns
the written data, in a fault-free run with a consistent cache. -/
theorem C1_round_trip (fuel tag bnum blks : Nat) (buf : Nat → Block) (s sW : SysState)
    (hI : CInv s.cache)
    (hcur : ∀ dd, -1 ≤ s.arrayBlocks dd ∧ s.arrayBlocks dd + (blks : Int) < 2 ^ 32)
    (hnf : ∀ k, s.faultAt k = false)
    (hfresh : bnum = s.tagcounter tag)
    (hblks : 0 < blks) (hblk255 : blks < 256)
    (hw : tagline_write fuel tag bnum blks buf s = some (0, sW)) :
    (tagline_read tag bnum blks sW).1 = 0 ∧
      ∀ i, i < blks → (tagline_read tag bnum blks sW).2.2 i = buf i := by
  unfold tagline_write at hw
  dsimp only at hw
  cases hcb : chooseBothGo fuel ((randDraw s).1) ((randDraw ((randDraw s).2)).1)
      ((randDraw ((randDraw s).2)).2) with
  | none =>
    rw [hcb] at hw
    dsimp only at hw
    exact Option.noConfusion hw
  | some r =>
    obtain ⟨disk, bdisk, s1⟩ := r
    rw [hcb] at hw
    dsimp only at hw
    rw [if_neg (show ¬(bnum < s.tagcounter tag) by omega)] at hw
    obtain ⟨hne, hg1, htc1, hab1, hc1, hf1, hoi1, htr1, hdc1, -, -, -, -, hd1, hb1⟩ :=
      chooseBothGo_spec fuel _ _ _ _ hcb
    dsimp only at hne hab1 hc1 hf1 hdc1 hd1 hb1
    have hab1' : s1.arrayBlocks = s.arrayBlocks := hab1
    have hc1' : s1.cache = s.cache := hc1
    have hf1' : s1.faultAt = s.faultAt := hf1
    have hdc1' : s1.disksC = s.disksC := hdc1
    have hnf1 : ∀ k, s1.faultAt k = false := fun k => by rw [hf1']; exact hnf k
    have hdisk4 : disk < RAID_DISKS := by
      rcases hd1 with h | h
      · exact h
      · rw [h]; exact Nat.mod_lt _ (by decide)
    have hbdisk4 : bdisk < RAID_DISKS := by
      rcases hb1 with h | h
      · exact h
      · rw [h]; exact Nat.mod_lt _ (by decide)
    have hdisk256 : disk < 256 := by unfold RAID_DISKS at hdisk4; omega
    have hbdisk256 : bdisk < 256 := by unfold RAID_DISKS at hbdisk4; omega
    rw [appendWrite_nofault tag bnum blks buf disk bdisk s1 hnf1] at hw
    dsimp only at hw
    rw [Option.some.injEq, Prod.mk.injEq] at hw
    obtain ⟨-, hsW⟩ := hw
    subst hsW
    obtain ⟨hmapA, hcacheA, hdiskA, hfA⟩ := appendOk_fields tag bnum blks buf disk bdisk s1 hne
    rw [hab1'] at hmapA hcacheA hdiskA
    rw [hc1'] at hcacheA
    rw [hdc1'] at hdiskA
    rw [hf1'] at hfA
    have hp0 := (hcur disk).1
    have hpB := (hcur disk).2
    set P0 : Nat := (s.arrayBlocks disk + 1).toNat with hP0
    have hcast : ∀ j : Nat, ((P0 + j : Nat) : Int) = s.arrayBlocks disk + 1 + (j : Int) := by
      intro j
      push_cast
      omega
    have hid : toU32 (s.arrayBlocks disk + 1) % 2 ^ 32 = P0 := by
      unfold toU32
      omega
    have hmod4 : disk % 256 = disk := Nat.mod_eq_of_lt hdisk256
    have hmodb : bdisk % 256 = bdisk := Nat.mod_eq_of_lt hbdisk256
    have hq : blks % 256 = blks := Nat.mod_eq_of_lt hblk255
    refine read_after_append tag bnum blks buf _ disk P0 hdisk256 (by omega) ?_ ?_ ?_ ?_ ?_
    · rw [hcacheA]
      exact CInv_putRun _ _ blks 0 _
        (CInv_putRun _ _ blks 0 _ hI (fun j _ _ => Int.natCast_nonneg disk))
        (fun j _ _ => Int.natCast_nonneg bdisk)
    · intro k
      rw [hfA]
      exact hnf k
    · intro j hj
      rw [hmapA j hj]
      exact ⟨rfl, (hcast j).symm⟩
    · intro j hj
      rw [hcacheA]
      have hkeq : ((disk : Int), ((P0 + j : Nat) : Int)) =
          (fun i : Nat => ((disk : Int), s.arrayBlocks disk + 1 + (i : Int))) j := by
        dsimp only
        rw [hcast j]
      rw [hkeq]
      refine goodAt_putRun_other _ buf _ (buf j) (Int.natCast_nonneg disk) blks 0 _
        (CInv_putRun _ _ blks 0 _ hI (fun j2 _ _ => Int.natCast_nonneg disk))
        (fun j2 _ _ => ⟨Int.natCast_nonneg bdisk,
          fun hc => hne (Nat.cast_injective hc.1)⟩)
        (goodAt_putRun_self _ buf blks 0 s.cache hI
          (fun j2 _ _ => Int.natCast_nonneg disk)
          (fun j1 j2 _ _ _ _ hne12 => fun he => hne12 (by
            have h2 := congrArg Prod.snd he
            dsimp only at h2
            omega))
          j (Nat.zero_le j) (by omega))
    · intro j hj
      rw [hdiskA, hmod4, hmodb, updF_ne _ _ hne, updF_same, hid, hq]
      unfold writeBlksAt
      rw [if_pos ⟨by omega, by omega⟩]
      rw [show P0 + j - P0 = j by omega]

/-- Witness for C1: the concrete three-block append run from baseState
satisfies every hypothesis of the round-trip theorem, and reading the
range back returns the written buffer. -/
theorem C1_witness :
    CInv baseState.cache ∧
    (∀ dd, -1 ≤ baseState.arrayBlocks dd ∧ baseState.arrayBlocks dd + (3 : Int) < 2 ^ 32) ∧
    (∀ k, baseState.faultAt k = false) ∧
    (0 : Nat) = baseState.tagcounter 0 ∧
    tagline_write 8 0 0 3 c1buf baseState = some (0, c1out) ∧
    (tagline_read 0 0 3 c1out).1 = 0 ∧
    ∀ i, i < 3 → (tagline_read 0 0 3 c1out).2.2 i = c1buf i := by
  have hCI : CInv baseState.cache :=
    ⟨by decide, by decide, fun j _ => rfl, fun j h => absurd h (Nat.not_lt_zero j),
      fun j1 j2 h1 _ _ => absurd h1 (Nat.not_lt_zero j1)⟩
  have hcur : ∀ dd, -1 ≤ baseState.arrayBlocks dd ∧
      baseState.arrayBlocks dd + (3 : Int) < 2 ^ 32 :=
    fun dd => ⟨le_refl (-1 : Int), show (-1 : Int) + 3 < 2 ^ 32 by norm_num⟩
  have hnf : ∀ k, baseState.faultAt k = false := fun k => rfl
  have hw : tagline_write 8 0 0 3 c1buf baseState = some (0, c1out) := rfl
  have hmain := C1_round_trip 8 0 0 3 c1buf baseState c1out hCI hcur hnf rfl
    (by decide) (by decide) hw
  exact ⟨hCI, hcur, hnf, rfl, hw, hmain.1, hmain.2⟩
